import Mathlib

/-!
Verification development for the PLY parser prototype (`src/main.rs` of SirVer/ply).

The program is written against the nom 1.x parser-combinator library
(`named!`, `chain!` with `~`, `IResult` with `Done`/`Error`/`Incomplete`,
the `GetOutput` trait).  The combinators used by the program are embedded
here with nom 1.x semantics:

* character-class parsers (`digit`, `multispace`, `take_while1!`, `is_not!`,
  `not_line_ending`) consume the maximal matching prefix; they fail with a
  positioned error when the first byte is present but does not match, and
  they return `Done` when the input runs out (including on empty input).
  The repository's own test `parse_category_test` feeds `property` an input
  that ends directly after a newline and expects `Done`, which requires
  exactly this end-of-input behaviour.
* `tag!` returns `Incomplete` when the input is shorter than the tag.
* `alt!` tries branches in order, stopping at the first `Done`, and
  propagates an `Incomplete` of a branch without trying later branches;
  when all branches fail it reports an `Alt` error at its own input.
* `chain!` propagates errors and `Incomplete` of sub-parsers unchanged.
* `many0!`/`many1!` loop while the sub-parser succeeds, propagate
  `Incomplete`, and `many1!` reports a `Many1` error at its own input when
  the first iteration fails.  The embedding adds a fuel argument (the
  input length plus one) purely to make the recursion structural; every
  sub-parser used under `many0!`/`many1!` here consumes at least one byte
  on success, so the fuel is never exhausted.

Bytes are modelled as natural numbers, byte slices as `List Nat`.
Errors are modelled as nom's positioned errors: an error kind together
with the remaining input at the point of failure.

Rust panics (`unwrap()` on a failed parse, `unimplemented!()`, and an
out-of-bounds slice) are modelled by the `Panics` wrapper.

`f32` values are modelled as exact rationals: `f32::from_str` is modelled
as parsing the standard decimal grammar (sign, digits, optional fraction,
optional exponent) to a rational, succeeding exactly when Rust's parser
succeeds on that grammar.  The special spellings `inf`/`infinity`/`nan`,
which Rust also accepts, and the final rounding step to the nearest `f32`
are outside the model; every float literal appearing in this development
is exactly representable in `f32`, where the two semantics agree.
-/

namespace Ply

/-- ASCII byte list of a string literal (all inputs in this development are ASCII). -/
def bytes (s : String) : List Nat := s.data.map Char.toNat

/-- Error kinds of the nom 1.x combinators used by the program
(`Err::Position(kind, input)`). -/
inductive ErrKind where
  | Tag
  | MapRes
  | Alt
  | Digit
  | MultiSpace
  | Many1
  | TakeWhile1
  | IsNot
  deriving DecidableEq

/-- nom's `IResult`: `Done(remaining, output)`, a positioned error, or
`Incomplete` with an optional needed size. -/
inductive IResult (α : Type) where
  | done (rest : List Nat) (out : α)
  | error (kind : ErrKind) (pos : List Nat)
  | incomplete (needed : Option Nat)
  deriving DecidableEq

abbrev Parser (α : Type) := List Nat → IResult α

/-- Sequencing as produced by nom's `chain!` macro: errors and
`Incomplete` of the first parser propagate unchanged. -/
def pseq {α β : Type} (p : Parser α) (q : α → Parser β) : Parser β := fun input =>
  match p input with
  | .done r o => q o r
  | .error k pos => .error k pos
  | .incomplete n => .incomplete n

/-- nom's `map!`. -/
def mapP {α β : Type} (p : Parser α) (f : α → β) : Parser β := fun input =>
  match p input with
  | .done r o => .done r (f o)
  | .error k pos => .error k pos
  | .incomplete n => .incomplete n

/-- nom's `map_res!`: a failing conversion yields a `MapRes` error at the
combinator's own input. -/
def mapRes {α β : Type} (p : Parser α) (f : α → Option β) : Parser β := fun input =>
  match p input with
  | .done r o =>
    match f o with
    | some b => .done r b
    | none => .error .MapRes input
  | .error k pos => .error k pos
  | .incomplete n => .incomplete n

/-- nom's `alt!`: first `Done` wins, a branch's `Incomplete` is propagated
without trying later branches, and when every branch fails the result is
an `Alt` error at the alternation's input. -/
def altP {α : Type} : List (Parser α) → Parser α
  | [], input => .error .Alt input
  | p :: ps, input =>
    match p input with
    | .done r o => .done r o
    | .incomplete n => .incomplete n
    | .error _ _ => altP ps input

/-- nom's `many0!` with a fuel argument making the recursion structural;
the loop stops when the sub-parser fails and propagates `Incomplete`.
With fuel larger than the input length and a sub-parser that consumes at
least one byte on success, the fuel-exhaustion branch is unreachable. -/
def many0P {α : Type} (p : Parser α) : Nat → Parser (List α)
  | 0, input => .done input []
  | fuel + 1, input =>
    match p input with
    | .error _ _ => .done input []
    | .incomplete n => .incomplete n
    | .done r x =>
      match many0P p fuel r with
      | .done r2 xs => .done r2 (x :: xs)
      | .error k pos => .error k pos
      | .incomplete n => .incomplete n

/-- nom's `many1!`: a failing first iteration yields a `Many1` error at
the combinator's input. -/
def many1P {α : Type} (p : Parser α) (fuel : Nat) : Parser (List α) := fun input =>
  match p input with
  | .error _ _ => .error .Many1 input
  | .incomplete n => .incomplete n
  | .done r x =>
    match many0P p fuel r with
    | .done r2 xs => .done r2 (x :: xs)
    | .error k pos => .error k pos
    | .incomplete n => .incomplete n

/-- nom's `tag!`. -/
def tagP (t : List Nat) : Parser (List Nat) := fun input =>
  if input.length < t.length then .incomplete (some t.length)
  else if t.isPrefixOf input then .done (input.drop t.length) t
  else .error .Tag input

/-- The common shape of nom 1.x character-class parsers: an error when the
first byte does not match, otherwise the maximal matching prefix, with
`Done` on an exhausted (or empty) input. -/
def charClass1 (k : ErrKind) (p : Nat → Bool) : Parser (List Nat)
  | [] => .done [] []
  | b :: rest =>
    if p b then .done ((b :: rest).dropWhile p) ((b :: rest).takeWhile p)
    else .error k (b :: rest)

/-- ASCII digit. -/
def isDigitB (b : Nat) : Bool := 48 ≤ b && b ≤ 57

/-- nom's `is_space` extended with CR and LF, as used by `multispace`. -/
def isWSB (b : Nat) : Bool := b == 32 || b == 9 || b == 13 || b == 10

/-- `is_identifier` from the source: `a-z`, `A-Z` and `_`. -/
def is_identifier (b : Nat) : Bool :=
  (97 ≤ b && b ≤ 122) || (65 ≤ b && b ≤ 90) || b == 95

/-- nom's `digit`. -/
def digitP : Parser (List Nat) := charClass1 .Digit isDigitB

/-- nom's `multispace`: one or more of space, tab, CR, LF. -/
def multispaceP : Parser (List Nat) := charClass1 .MultiSpace isWSB

/-- `identifier` from the source: `take_while1!(is_identifier)`. -/
def identifier : Parser (List Nat) := charClass1 .TakeWhile1 is_identifier

/-- nom's `is_not!`: the maximal prefix free of the given bytes. -/
def isNotP (set : List Nat) : Parser (List Nat) :=
  charClass1 .IsNot (fun b => !(set.contains b))

/-- nom's `not_line_ending`: everything up to the first CR or LF
(possibly empty), `Done` when the input runs out. -/
def not_line_ending : Parser (List Nat) := fun input =>
  .done (input.dropWhile (fun b => !(b == 13 || b == 10)))
        (input.takeWhile (fun b => !(b == 13 || b == 10)))

/-- `std::str::from_utf8`, modelled as UTF-8 (RFC 3629) validation of the
byte list (the embedding keeps strings as their byte lists).  The state is
the number of expected continuation bytes together with the admissible
range of the next byte. -/
def utf8ValidAux : Nat → Nat → Nat → List Nat → Bool
  | 0, _, _, [] => true
  | _ + 1, _, _, [] => false
  | 0, _, _, b :: rest =>
    if b ≤ 127 then utf8ValidAux 0 0 0 rest
    else if 194 ≤ b && b ≤ 223 then utf8ValidAux 1 128 191 rest
    else if b = 224 then utf8ValidAux 2 160 191 rest
    else if 225 ≤ b && b ≤ 236 then utf8ValidAux 2 128 191 rest
    else if b = 237 then utf8ValidAux 2 128 159 rest
    else if 238 ≤ b && b ≤ 239 then utf8ValidAux 2 128 191 rest
    else if b = 240 then utf8ValidAux 3 144 191 rest
    else if 241 ≤ b && b ≤ 243 then utf8ValidAux 3 128 191 rest
    else if b = 244 then utf8ValidAux 3 128 143 rest
    else false
  | n + 1, lo, hi, b :: rest =>
    if lo ≤ b && b ≤ hi then utf8ValidAux n 128 191 rest else false

def utf8Valid (l : List Nat) : Bool := utf8ValidAux 0 0 0 l

def from_utf8 (l : List Nat) : Option (List Nat) :=
  if utf8Valid l then some l else none

/-- Decimal value of a digit byte list. -/
def decVal (l : List Nat) : Nat := l.foldl (fun a b => a * 10 + (b - 48)) 0

/-- Optional leading sign, as accepted by Rust's integer and float parsing:
returns whether the number is negated and the rest of the input. -/
def parseSign : List Nat → Bool × List Nat
  | [] => (false, [])
  | b :: r => if b = 43 then (false, r) else if b = 45 then (true, r) else (false, b :: r)

/-- Value of a parsed digit string with its sign. -/
def signedVal (neg : Bool) (d : List Nat) : Int :=
  if neg then -(decVal d : Int) else (decVal d : Int)

/-- Rust's `str::parse` for a bounded signed integer type: an optional
sign, one or more digits, nothing else, and a range check. -/
def parseSigned (lo hi : Int) (l : List Nat) : Option Int :=
  if (parseSign l).2.isEmpty || !(parseSign l).2.all isDigitB then none
  else if lo ≤ signedVal (parseSign l).1 (parseSign l).2 ∧
          signedVal (parseSign l).1 (parseSign l).2 ≤ hi then
    some (signedVal (parseSign l).1 (parseSign l).2)
  else none

/-- `str::parse::<i32>`. -/
def parseI32 : List Nat → Option Int := parseSigned (-2147483648) 2147483647

/-- `str::parse::<i64>`. -/
def parseI64 : List Nat → Option Int := parseSigned (-9223372036854775808) 9223372036854775807

/-- `f32::from_str`, modelled exactly over the decimal grammar
`sign? (digits fraction? | fraction) exponent?` with the value as an exact
rational (see the file header for the scope of the model). -/
def parseF32 (l : List Nat) : Option ℚ :=
  let s := parseSign l
  let l1 := s.2
  let ip := l1.takeWhile isDigitB
  let l2 := l1.dropWhile isDigitB
  let fr : List Nat × List Nat :=
    match l2 with
    | 46 :: r => (r.takeWhile isDigitB, r.dropWhile isDigitB)
    | _ => ([], l2)
  let fp := fr.1
  let l3 := fr.2
  if ip.isEmpty && fp.isEmpty then none
  else
    let mag : Int := (decVal ip * 10 ^ fp.length + decVal fp : Nat)
    let num : Int := if s.1 then -mag else mag
    match l3 with
    | [] => some (Rat.divInt num (10 ^ fp.length))
    | e :: r =>
      if e == 101 || e == 69 then
        let es := parseSign r
        let ed := es.2.takeWhile isDigitB
        let r2 := es.2.dropWhile isDigitB
        if ed.isEmpty || !r2.isEmpty then none
        else if es.1 then some (Rat.divInt num (10 ^ fp.length * 10 ^ decVal ed))
        else some (Rat.divInt (num * 10 ^ decVal ed) (10 ^ fp.length))
      else none

/-! ## Data model (src/main.rs lines 11-113) -/

structure Version where
  major : Int
  minor : Int
  deriving DecidableEq

inductive FormatKind where
  | Ascii
  | BigEndian
  | LittleEndian
  deriving DecidableEq

structure Format where
  kind : FormatKind
  version : Version
  deriving DecidableEq

inductive ValueKind where
  | Int8 | UInt8 | Int16 | UInt16 | Int32 | UInt32 | Int64 | UInt64
  | Float32 | Float64
  deriving DecidableEq

/-- Decoded scalar values; integers carry their mathematical value, floats
are modelled as exact rationals (see the file header). -/
inductive Value where
  | int8 (v : Int) | uint8 (v : Int) | int16 (v : Int) | uint16 (v : Int)
  | int32 (v : Int) | uint32 (v : Int) | int64 (v : Int) | uint64 (v : Int)
  | float32 (v : ℚ) | float64 (v : ℚ)
  deriving DecidableEq

inductive PropertyKind where
  | Scalar (t : ValueKind)
  | List (countType elemType : ValueKind)
  deriving DecidableEq

structure Property where
  name : List Nat
  kind : PropertyKind
  deriving DecidableEq

structure Element where
  name : List Nat
  count : Int
  properties : List Property
  deriving DecidableEq

structure Header where
  comments : List (List Nat)
  format : Format
  elements : List Element
  deriving DecidableEq

/-! ## Named parsers (src/main.rs lines 37-226) -/

/-- `format_version` (src lines 37-44): `INT "." INT` with `str::parse::<i32>`. -/
def format_version : Parser Version :=
  pseq (mapRes (mapRes digitP from_utf8) parseI32) (fun major =>
  pseq (tagP (bytes ".")) (fun _ =>
  mapP (mapRes (mapRes digitP from_utf8) parseI32) (fun minor =>
    { major := major, minor := minor })))

/-- `format` (src lines 48-65). -/
def format : Parser Format :=
  pseq (tagP (bytes "format")) (fun _ =>
  pseq multispaceP (fun _ =>
  pseq (altP
        [mapP (tagP (bytes "ascii")) (fun _ => FormatKind.Ascii),
         mapP (tagP (bytes "binary_big_endian")) (fun _ => FormatKind.BigEndian),
         mapP (tagP (bytes "binary_little_endian")) (fun _ => FormatKind.LittleEndian)])
       (fun kind =>
  pseq multispaceP (fun _ =>
  pseq format_version (fun version =>
  mapP multispaceP (fun _ =>
    { kind := kind, version := version }))))))

/-- `data_type` (src lines 129-155), with the alternation in source order. -/
def data_type : Parser ValueKind :=
  altP
    [mapP (tagP (bytes "char")) (fun _ => ValueKind.Int8),
     mapP (tagP (bytes "uchar")) (fun _ => ValueKind.UInt8),
     mapP (tagP (bytes "short")) (fun _ => ValueKind.Int16),
     mapP (tagP (bytes "ushort")) (fun _ => ValueKind.UInt16),
     mapP (tagP (bytes "int64")) (fun _ => ValueKind.Int64),
     mapP (tagP (bytes "int32")) (fun _ => ValueKind.Int32),
     mapP (tagP (bytes "int16")) (fun _ => ValueKind.Int16),
     mapP (tagP (bytes "int8")) (fun _ => ValueKind.Int8),
     mapP (tagP (bytes "int")) (fun _ => ValueKind.Int32),
     mapP (tagP (bytes "uint8")) (fun _ => ValueKind.UInt8),
     mapP (tagP (bytes "uint16")) (fun _ => ValueKind.UInt16),
     mapP (tagP (bytes "uint32")) (fun _ => ValueKind.UInt32),
     mapP (tagP (bytes "uint64")) (fun _ => ValueKind.UInt64),
     mapP (tagP (bytes "uint")) (fun _ => ValueKind.UInt32),
     mapP (tagP (bytes "float32")) (fun _ => ValueKind.Float32),
     mapP (tagP (bytes "float64")) (fun _ => ValueKind.Float64),
     mapP (tagP (bytes "float")) (fun _ => ValueKind.Float32),
     mapP (tagP (bytes "double")) (fun _ => ValueKind.Float64)]

/-- `property` (src lines 157-180). -/
def property : Parser Property :=
  pseq (tagP (bytes "property")) (fun _ =>
  pseq multispaceP (fun _ =>
  pseq (altP
        [pseq (tagP (bytes "list")) (fun _ =>
         pseq multispaceP (fun _ =>
         pseq data_type (fun count_data_type =>
         pseq multispaceP (fun _ =>
         mapP data_type (fun element_data_type =>
           PropertyKind.List count_data_type element_data_type))))),
         mapP data_type (fun d => PropertyKind.Scalar d)])
       (fun kind =>
  pseq multispaceP (fun _ =>
  pseq (mapRes identifier from_utf8) (fun name =>
  mapP multispaceP (fun _ =>
    { name := name, kind := kind }))))))

/-- `element` (src lines 182-197); the fuel of `many1!` is the remaining
input length plus one (see the file header). -/
def element : Parser Element :=
  pseq (tagP (bytes "element")) (fun _ =>
  pseq multispaceP (fun _ =>
  pseq (mapRes identifier from_utf8) (fun name =>
  pseq multispaceP (fun _ =>
  pseq (mapRes (mapRes digitP from_utf8) parseI64) (fun count =>
  pseq multispaceP (fun _ =>
  mapP (fun i => many1P property (i.length + 1) i) (fun properties =>
    { name := name, count := count, properties := properties })))))))

/-- `comment` (src lines 199-207); the comment text is kept as its bytes. -/
def comment : Parser (List Nat) :=
  pseq (tagP (bytes "comment")) (fun _ =>
  pseq multispaceP (fun _ =>
  pseq (mapRes not_line_ending from_utf8) (fun c =>
  mapP multispaceP (fun _ => c))))

/-- `header` (src lines 209-226). -/
def header : Parser Header :=
  pseq (tagP (bytes "ply")) (fun _ =>
  pseq multispaceP (fun _ =>
  pseq format (fun fmt =>
  pseq (fun i => many0P comment (i.length + 1) i) (fun comments =>
  pseq (fun i => many1P element (i.length + 1) i) (fun elements =>
  pseq (tagP (bytes "end_header")) (fun _ =>
  mapP multispaceP (fun _ =>
    { comments := comments, format := fmt, elements := elements })))))))

/-! ## Body decoding (src/main.rs lines 228-272) -/

/-- A Rust computation that either returns or aborts the process
(`unwrap()` on an `Err`, `unimplemented!()`, out-of-bounds slicing). -/
inductive Panics (α : Type) where
  | ret (a : α)
  | panicked
  deriving DecidableEq

/-- `ascii_value` (src lines 228-246): one token delimited by `is_not!(b" \n")`
followed by `multispace`; only `Float32` is implemented, via
`f32::from_str(out).unwrap()` — any other kind, and any token rejected by
`from_str`, aborts. -/
def ascii_value (input : List Nat) (value_kind : ValueKind) : Panics (IResult Value) :=
  let token :=
    (pseq (mapRes (isNotP (bytes " \n")) from_utf8) (fun t =>
     mapP multispaceP (fun _ => t))) input
  match token with
  | .error a pos => .ret (.error a pos)
  | .incomplete i => .ret (.incomplete i)
  | .done remaining out =>
    match value_kind with
    | .Float32 =>
      match parseF32 out with
      | some q => .ret (.done remaining (.float32 q))
      | none => .panicked
    | _ => .panicked

/-- `value` (src lines 248-256): binary formats are `unimplemented!()`. -/
def value (input : List Nat) (format_kind : FormatKind) (value_kind : ValueKind) :
    Panics (IResult Value) :=
  match format_kind with
  | .Ascii => ascii_value input value_kind
  | .LittleEndian => .panicked
  | .BigEndian => .panicked

/-- `body` (src lines 258-272): the loops only print; the slice
`&header.elements[..1]` aborts when there is no element, and the returned
result is a single `value` call at the start of the input with
`ValueKind::Float32`. -/
def body (input : List Nat) (h : Header) : Panics (IResult Value) :=
  if h.elements.length < 1 then .panicked
  else value input h.format.kind .Float32

/-! ## Concrete inputs and values used by the claims -/

/-- The end-to-end example input of the spec (section 8). -/
def c1input : List Nat :=
  bytes "ply\nformat ascii 1.0\nelement vertex 1\nproperty float x\nproperty float y\nproperty float z\nend_header\n1.0 2.0 3.0\n"

/-- The bytes remaining after the header of `c1input`. -/
def c1body : List Nat := bytes "1.0 2.0 3.0\n"

/-- The header value the spec's end-to-end example describes. -/
def c1hdr : Header :=
  { comments := [],
    format := { kind := FormatKind.Ascii, version := { major := 1, minor := 0 } },
    elements := [{ name := bytes "vertex", count := 1,
                   properties := [{ name := bytes "x", kind := PropertyKind.Scalar ValueKind.Float32 },
                                  { name := bytes "y", kind := PropertyKind.Scalar ValueKind.Float32 },
                                  { name := bytes "z", kind := PropertyKind.Scalar ValueKind.Float32 }] }] }

/-- The list property of the spec's list-decoding example. -/
def c4prop : Property :=
  { name := bytes "vertex_indices", kind := PropertyKind.List ValueKind.UInt8 ValueKind.Int32 }

/-- A header declaring one element with the single list property `c4prop`. -/
def c4hdr : Header :=
  { comments := [],
    format := { kind := FormatKind.Ascii, version := { major := 1, minor := 0 } },
    elements := [{ name := bytes "face", count := 1, properties := [c4prop] }] }

/-- A header whose version token is malformed (`1.x`). -/
def c5input : List Nat :=
  bytes "ply\nformat ascii 1.x\nelement vertex 1\nproperty float x\nend_header\n"

/-- The suffix of `c5input` starting at the offending byte `x` (offset 19). -/
def c5pos : List Nat := bytes "x\nelement vertex 1\nproperty float x\nend_header\n"

/-- A header section declaring zero elements: the format line directly
followed by `end_header`. -/
def zeroElemInput : List Nat := bytes "ply\nformat ascii 1.0\nend_header\n"

/-- The byte predicate of the ASCII tokenizer `is_not!(b" \n")`: a byte
continues the token iff it is neither space nor newline. -/
def tokenByte (b : Nat) : Bool := !((bytes " \n").contains b)

/-- Either empty, or the head byte fails the predicate. -/
def headNot (p : Nat → Bool) : List Nat → Prop
  | [] => True
  | b :: _ => p b = false

/-! ## Well-formedness of parsed headers, and the canonical serializer -/

/-- Head byte exists and is not whitespace. -/
def headNotWS : List Nat → Prop
  | [] => False
  | b :: _ => isWSB b = false

/-- No CR or LF byte. -/
def noLineEnd (c : List Nat) : Prop := ∀ b ∈ c, b ≠ 13 ∧ b ≠ 10

/-- Shape of a comment text produced by a successful `header` parse. -/
def goodComment (c : List Nat) : Prop :=
  utf8Valid c = true ∧ noLineEnd c ∧ headNotWS c

/-- Range of an `i32` produced by parsing an unsigned digit string. -/
def goodVersionInt (v : Int) : Prop := 0 ≤ v ∧ v ≤ 2147483647

/-- Range of an `i64` produced by parsing an unsigned digit string. -/
def goodCountInt (v : Int) : Prop := 0 ≤ v ∧ v ≤ 9223372036854775807

def goodProperty (p : Property) : Prop :=
  p.name ≠ [] ∧ p.name.all is_identifier = true

def goodElement (e : Element) : Prop :=
  e.name ≠ [] ∧ e.name.all is_identifier = true ∧ goodCountInt e.count ∧
  e.properties ≠ [] ∧ ∀ p ∈ e.properties, goodProperty p

/-- Every header value reachable from a successful `header` parse has this
shape; it is exactly what the canonical serializer needs to round-trip. -/
def WFHeader (h : Header) : Prop :=
  (∀ c ∈ h.comments, goodComment c) ∧
  goodVersionInt h.format.version.major ∧
  goodVersionInt h.format.version.minor ∧
  h.elements ≠ [] ∧
  ∀ e ∈ h.elements, goodElement e

/-- Decimal digits of a natural number, most significant first; the fuel
argument (first) makes the recursion structural and is always at least the
value, which exceeds its digit count. -/
def natToDecAux : Nat → Nat → List Nat
  | 0, n => [48 + n]
  | f + 1, n => if n < 10 then [48 + n] else natToDecAux f (n / 10) ++ [48 + n % 10]

/-- Decimal digits of a natural number, most significant first. -/
def natToDec (n : Nat) : List Nat := natToDecAux n n

/-- Canonical spelling of a format kind. -/
def kindBytes : FormatKind → List Nat
  | .Ascii => bytes "ascii"
  | .BigEndian => bytes "binary_big_endian"
  | .LittleEndian => bytes "binary_little_endian"

/-- Canonical spelling of a data type (the first alias of the spec's table). -/
def typeBytes : ValueKind → List Nat
  | .Int8 => bytes "char"
  | .UInt8 => bytes "uchar"
  | .Int16 => bytes "short"
  | .UInt16 => bytes "ushort"
  | .Int32 => bytes "int"
  | .UInt32 => bytes "uint"
  | .Int64 => bytes "int64"
  | .UInt64 => bytes "uint64"
  | .Float32 => bytes "float"
  | .Float64 => bytes "double"

/-- Modelled from the spec: the repository contains no serializer (spec
section 1 places output of parsed results out of scope), but the spec's
round-trip property (section 8) speaks of "re-serializing the `Header`
back to canonical header text".  This canonical printer follows the spec's
header grammar (section 4.1) with single separating spaces and newlines
and the first alias of each data-type spelling. -/
def serializeProperty (p : Property) : List Nat :=
  bytes "property " ++
  (match p.kind with
   | .Scalar t => typeBytes t
   | .List c e => bytes "list " ++ typeBytes c ++ [32] ++ typeBytes e) ++
  [32] ++ p.name ++ [10]

/-- Modelled from the spec: canonical text of one element declaration and
its properties (see `serializeProperty`). -/
def serializeElement (e : Element) : List Nat :=
  bytes "element " ++ e.name ++ [32] ++ natToDec e.count.toNat ++ [10] ++
  (e.properties.map serializeProperty).flatten

/-- Modelled from the spec: canonical text of one comment line. -/
def serializeComment (c : List Nat) : List Nat := bytes "comment " ++ c ++ [10]

/-- Modelled from the spec: canonical header text of a `Header` value
(see `serializeProperty`). -/
def serializeHeader (h : Header) : List Nat :=
  bytes "ply\nformat " ++ kindBytes h.format.kind ++ [32] ++
  natToDec h.format.version.major.toNat ++ [46] ++
  natToDec h.format.version.minor.toNat ++ [10] ++
  (h.comments.map serializeComment).flatten ++
  (h.elements.map serializeElement).flatten ++
  bytes "end_header\n"

/-! ## Combinator lemmas -/

theorem pseq_done {α β : Type} {p : Parser α} {q : α → Parser β} {i r : List Nat} {b : β}
    (h : pseq p q i = .done r b) :
    ∃ r1 a, p i = .done r1 a ∧ q a r1 = .done r b := by
  unfold pseq at h
  cases hp : p i with
  | done r1 a => rw [hp] at h; exact ⟨r1, a, rfl, h⟩
  | error k pos => rw [hp] at h; simp at h
  | incomplete n => rw [hp] at h; simp at h

theorem pseq_done_intro {α β : Type} {p : Parser α} {q : α → Parser β}
    {i r1 r : List Nat} {a : α} {b : β}
    (hp : p i = .done r1 a) (hq : q a r1 = .done r b) :
    pseq p q i = .done r b := by
  unfold pseq; rw [hp]; exact hq

theorem pseq_error_intro1 {α β : Type} {p : Parser α} {q : α → Parser β}
    {i pos : List Nat} {k : ErrKind}
    (hp : p i = .error k pos) : pseq p q i = .error k pos := by
  unfold pseq; rw [hp]

theorem pseq_error_intro2 {α β : Type} {p : Parser α} {q : α → Parser β}
    {i r1 pos : List Nat} {a : α} {k : ErrKind}
    (hp : p i = .done r1 a) (hq : q a r1 = .error k pos) :
    pseq p q i = .error k pos := by
  unfold pseq; rw [hp]; exact hq

theorem pseq_incomplete_intro1 {α β : Type} {p : Parser α} {q : α → Parser β}
    {i : List Nat} {n : Option Nat}
    (hp : p i = .incomplete n) : pseq p q i = .incomplete n := by
  unfold pseq; rw [hp]

theorem pseq_incomplete_intro2 {α β : Type} {p : Parser α} {q : α → Parser β}
    {i r1 : List Nat} {a : α} {n : Option Nat}
    (hp : p i = .done r1 a) (hq : q a r1 = .incomplete n) :
    pseq p q i = .incomplete n := by
  unfold pseq; rw [hp]; exact hq

theorem mapP_done {α β : Type} {p : Parser α} {f : α → β} {i r : List Nat} {b : β}
    (h : mapP p f i = .done r b) :
    ∃ a, p i = .done r a ∧ b = f a := by
  unfold mapP at h
  cases hp : p i with
  | done r1 a =>
    rw [hp] at h
    simp only [IResult.done.injEq] at h
    exact ⟨a, by rw [h.1], h.2.symm⟩
  | error k pos => rw [hp] at h; simp at h
  | incomplete n => rw [hp] at h; simp at h

theorem mapP_done_intro {α β : Type} {p : Parser α} {f : α → β} {i r : List Nat} {a : α}
    (hp : p i = .done r a) : mapP p f i = .done r (f a) := by
  unfold mapP; rw [hp]

theorem mapRes_done {α β : Type} {p : Parser α} {f : α → Option β} {i r : List Nat} {b : β}
    (h : mapRes p f i = .done r b) :
    ∃ a, p i = .done r a ∧ f a = some b := by
  unfold mapRes at h
  split at h
  · rename_i r1 a heq
    split at h
    · rename_i b1 hf
      injection h with h1 h2
      subst h1; subst h2
      exact ⟨a, heq, hf⟩
    · simp at h
  · simp at h
  · simp at h

theorem mapRes_done_intro {α β : Type} {p : Parser α} {f : α → Option β}
    {i r : List Nat} {a : α} {b : β}
    (hp : p i = .done r a) (hf : f a = some b) : mapRes p f i = .done r b := by
  simp only [mapRes, hp, hf]

theorem altP_done {α : Type} {ps : List (Parser α)} {i r : List Nat} {o : α}
    (h : altP ps i = .done r o) : ∃ p ∈ ps, p i = .done r o := by
  induction ps with
  | nil => simp only [altP] at h; simp at h
  | cons p ps ih =>
    unfold altP at h
    split at h
    · rename_i heq
      injection h with h1 h2
      subst h1; subst h2
      exact ⟨p, List.mem_cons_self p ps, heq⟩
    · simp at h
    · rename_i k pos heq
      obtain ⟨p1, hm, hd⟩ := ih h
      exact ⟨p1, List.mem_cons_of_mem p hm, hd⟩

theorem altP_head_done {α : Type} {p : Parser α} {ps : List (Parser α)} {i r : List Nat} {o : α}
    (hp : p i = .done r o) : altP (p :: ps) i = .done r o := by
  simp only [altP, hp]

theorem altP_tail {α : Type} {p : Parser α} {ps : List (Parser α)} {i pos : List Nat} {k : ErrKind}
    (hp : p i = .error k pos) : altP (p :: ps) i = altP ps i := by
  simp only [altP, hp]

theorem altP_head_incomplete {α : Type} {p : Parser α} {ps : List (Parser α)}
    {i : List Nat} {n : Option Nat}
    (hp : p i = .incomplete n) : altP (p :: ps) i = .incomplete n := by
  simp only [altP, hp]

theorem many0P_stop {α : Type} {p : Parser α} {fuel : Nat} {i pos : List Nat} {k : ErrKind}
    (hp : p i = .error k pos) : many0P p (fuel + 1) i = .done i [] := by
  simp only [many0P, hp]

theorem many0P_step {α : Type} {p : Parser α} {fuel : Nat} {i r r2 : List Nat} {x : α} {xs : List α}
    (hp : p i = .done r x) (hm : many0P p fuel r = .done r2 xs) :
    many0P p (fuel + 1) i = .done r2 (x :: xs) := by
  simp only [many0P, hp, hm]

theorem many0P_incomplete1 {α : Type} {p : Parser α} {fuel : Nat} {i : List Nat} {n : Option Nat}
    (hp : p i = .incomplete n) : many0P p (fuel + 1) i = .incomplete n := by
  simp only [many0P, hp]

theorem many1P_error {α : Type} {p : Parser α} {fuel : Nat} {i pos : List Nat} {k : ErrKind}
    (hp : p i = .error k pos) : many1P p fuel i = .error .Many1 i := by
  simp only [many1P, hp]

theorem many1P_intro {α : Type} {p : Parser α} {fuel : Nat} {i r r2 : List Nat} {x : α} {xs : List α}
    (hp : p i = .done r x) (hm : many0P p fuel r = .done r2 xs) :
    many1P p fuel i = .done r2 (x :: xs) := by
  simp only [many1P, hp, hm]

theorem many1P_incomplete {α : Type} {p : Parser α} {fuel : Nat} {i : List Nat} {n : Option Nat}
    (hp : p i = .incomplete n) : many1P p fuel i = .incomplete n := by
  simp only [many1P, hp]

theorem many1P_done {α : Type} {p : Parser α} {fuel : Nat} {i r : List Nat} {xs : List α}
    (h : many1P p fuel i = .done r xs) :
    ∃ x xs' r1, p i = .done r1 x ∧ many0P p fuel r1 = .done r xs' ∧ xs = x :: xs' := by
  unfold many1P at h
  split at h
  · simp at h
  · simp at h
  · rename_i r1 x heq
    split at h
    · rename_i r2 xs' hm
      injection h with h1 h2
      subst h1; subst h2
      exact ⟨x, xs', r1, heq, hm, rfl⟩
    · simp at h
    · simp at h

theorem many1P_ne_nil {α : Type} {p : Parser α} {fuel : Nat} {i r : List Nat} {xs : List α}
    (h : many1P p fuel i = .done r xs) : xs ≠ [] := by
  obtain ⟨x, xs', r1, _, _, hx⟩ := many1P_done h
  rw [hx]; exact List.cons_ne_nil x xs'

theorem many0P_done {α : Type} {p : Parser α} {fuel : Nat} {i r : List Nat} {xs : List α}
    (h : many0P p (fuel + 1) i = .done r xs) :
    (∃ k pos, p i = .error k pos ∧ r = i ∧ xs = []) ∨
    (∃ r1 x xs', p i = .done r1 x ∧ many0P p fuel r1 = .done r xs' ∧ xs = x :: xs') := by
  unfold many0P at h
  split at h
  · rename_i k pos heq
    injection h with h1 h2
    exact Or.inl ⟨k, pos, heq, h1.symm, h2.symm⟩
  · simp at h
  · rename_i r1 x heq
    split at h
    · rename_i r2 xs' hm
      injection h with h1 h2
      subst h1; subst h2
      exact Or.inr ⟨r1, x, xs', heq, hm, rfl⟩
    · simp at h
    · simp at h

theorem many0P_mem {α : Type} {p : Parser α} :
    ∀ {fuel : Nat} {i r : List Nat} {xs : List α},
      many0P p fuel i = .done r xs → ∀ x ∈ xs, ∃ i' r', p i' = .done r' x := by
  intro fuel
  induction fuel with
  | zero =>
    intro i r xs h x hx
    unfold many0P at h
    injection h with h1 h2
    rw [← h2] at hx
    simp at hx
  | succ fuel ih =>
    intro i r xs h x hx
    rcases many0P_done h with ⟨k, pos, _, _, hxs⟩ | ⟨r1, x1, xs', hp, hm, hxs⟩
    · rw [hxs] at hx; simp at hx
    · rw [hxs] at hx
      rcases List.mem_cons.mp hx with h1 | h2
      · exact ⟨i, r1, by rw [hp, h1]⟩
      · exact ih hm x h2

theorem many1P_mem {α : Type} {p : Parser α} {fuel : Nat} {i r : List Nat} {xs : List α}
    (h : many1P p fuel i = .done r xs) : ∀ x ∈ xs, ∃ i' r', p i' = .done r' x := by
  obtain ⟨x, xs', r1, hp, hm, hx⟩ := many1P_done h
  intro y hy
  rw [hx] at hy
  rcases List.mem_cons.mp hy with h1 | h2
  · exact ⟨i, r1, by rw [hp, h1]⟩
  · exact many0P_mem hm y h2

/-! ## Character-class and tag lemmas -/

theorem takeWhile_append_all {p : Nat → Bool} :
    ∀ {tok rest : List Nat}, (∀ b ∈ tok, p b = true) → headNot p rest →
      (tok ++ rest).takeWhile p = tok ∧ (tok ++ rest).dropWhile p = rest := by
  intro tok
  induction tok with
  | nil =>
    intro rest _ hrest
    cases rest with
    | nil => simp
    | cons b t =>
      unfold headNot at hrest
      simp [List.takeWhile_cons, List.dropWhile_cons, hrest]
  | cons a tok ih =>
    intro rest hall hrest
    have ha : p a = true := hall a (List.mem_cons_self a tok)
    have h2 := ih (fun b hb => hall b (List.mem_cons_of_mem a hb)) hrest
    simp [List.takeWhile_cons, List.dropWhile_cons, ha, h2.1, h2.2]

theorem charClass1_span {k : ErrKind} {p : Nat → Bool} {tok rest : List Nat}
    (hne : tok ≠ []) (hall : ∀ b ∈ tok, p b = true) (hrest : headNot p rest) :
    charClass1 k p (tok ++ rest) = .done rest tok := by
  obtain ⟨a, tok', rfl⟩ := List.exists_cons_of_ne_nil hne
  have ha : p a = true := hall a (List.mem_cons_self a tok')
  have h2 := takeWhile_append_all hall hrest
  rw [List.cons_append] at h2 ⊢
  simp only [charClass1, ha, if_true, h2.1, h2.2]

theorem charClass1_error {k : ErrKind} {p : Nat → Bool} {b : Nat} {rest : List Nat}
    (hb : p b = false) : charClass1 k p (b :: rest) = .error k (b :: rest) := by
  simp only [charClass1, hb]
  rw [if_neg (by simp)]

theorem charClass1_nil {k : ErrKind} {p : Nat → Bool} : charClass1 k p [] = .done [] [] := rfl

theorem charClass1_done {k : ErrKind} {p : Nat → Bool} {i r o : List Nat}
    (h : charClass1 k p i = .done r o) :
    o = i.takeWhile p ∧ r = i.dropWhile p ∧ (o = [] → i = []) := by
  cases i with
  | nil =>
    simp only [charClass1] at h
    injection h with h1 h2
    exact ⟨h2.symm, h1.symm, fun _ => rfl⟩
  | cons b rest =>
    simp only [charClass1] at h
    split at h
    · rename_i hb
      injection h with h1 h2
      refine ⟨h2.symm, h1.symm, fun ho => absurd ho ?_⟩
      rw [← h2, List.takeWhile_cons, if_pos hb]
      exact List.cons_ne_nil _ _
    · simp at h

theorem tagP_self {t rest : List Nat} : tagP t (t ++ rest) = .done rest t := by
  unfold tagP
  rw [if_neg (by simp), if_pos, List.drop_left]
  rw [List.isPrefixOf_iff_prefix]
  exact List.prefix_append t rest

theorem isPrefixOf_append_false :
    ∀ {t c : List Nat}, t.isPrefixOf c = false → t.length ≤ c.length →
      ∀ rest, t.isPrefixOf (c ++ rest) = false := by
  intro t
  induction t with
  | nil => intro c h _ _; simp [List.isPrefixOf] at h
  | cons a t ih =>
    intro c h hlen rest
    cases c with
    | nil => simp at hlen
    | cons b c' =>
      rw [List.cons_append]
      simp only [List.isPrefixOf_cons₂] at h ⊢
      rcases Bool.and_eq_false_iff.mp h with h1 | h2
      · rw [h1]; simp
      · rw [ih h2 (by simpa using hlen) rest]; simp

theorem tagP_mismatch {t i : List Nat} (hlen : t.length ≤ i.length)
    (hpre : t.isPrefixOf i = false) : tagP t i = .error .Tag i := by
  unfold tagP
  rw [if_neg (by omega), if_neg (by rw [hpre]; exact Bool.false_ne_true)]

theorem tagP_mismatch_append {t c : List Nat} (h1 : t.isPrefixOf c = false)
    (h2 : t.length ≤ c.length) (rest : List Nat) :
    tagP t (c ++ rest) = .error .Tag (c ++ rest) :=
  tagP_mismatch (by rw [List.length_append]; omega) (isPrefixOf_append_false h1 h2 rest)

theorem tagP_short {t i : List Nat} (h : i.length < t.length) :
    tagP t i = .incomplete (some t.length) := by
  unfold tagP
  rw [if_pos h]

/-! ## Numeric and UTF-8 helper lemmas -/

theorem utf8Valid_ascii : ∀ {l : List Nat}, (∀ b ∈ l, b ≤ 127) → utf8Valid l = true := by
  intro l
  induction l with
  | nil => intro _; rfl
  | cons b rest ih =>
    intro h
    show utf8ValidAux 0 0 0 (b :: rest) = true
    rw [utf8ValidAux]
    rw [if_pos (h b (List.mem_cons_self b rest))]
    exact ih fun x hx => h x (List.mem_cons_of_mem b hx)

theorem from_utf8_ascii {l : List Nat} (h : ∀ b ∈ l, b ≤ 127) : from_utf8 l = some l := by
  unfold from_utf8
  rw [if_pos (utf8Valid_ascii h)]

theorem isDigitB_le (b : Nat) (h : isDigitB b = true) : b ≤ 127 := by
  simp only [isDigitB, Bool.and_eq_true, decide_eq_true_eq] at h
  omega

theorem isDigitB_not_ws {b : Nat} (h : isDigitB b = true) : isWSB b = false := by
  simp only [isDigitB, Bool.and_eq_true, decide_eq_true_eq] at h
  simp only [isWSB, Bool.or_eq_false_iff, beq_eq_false_iff_ne]
  omega

theorem is_identifier_le (b : Nat) (h : is_identifier b = true) : b ≤ 127 := by
  simp only [is_identifier, Bool.or_eq_true, Bool.and_eq_true, decide_eq_true_eq,
    beq_iff_eq] at h
  omega

theorem is_identifier_not_ws {b : Nat} (h : is_identifier b = true) : isWSB b = false := by
  simp only [is_identifier, Bool.or_eq_true, Bool.and_eq_true, decide_eq_true_eq,
    beq_iff_eq] at h
  simp only [isWSB, Bool.or_eq_false_iff, beq_eq_false_iff_ne]
  omega

theorem is_identifier_not_digit {b : Nat} (h : is_identifier b = true) : isDigitB b = false := by
  simp only [is_identifier, Bool.or_eq_true, Bool.and_eq_true, decide_eq_true_eq,
    beq_iff_eq] at h
  simp only [isDigitB, Bool.and_eq_false_iff, decide_eq_false_iff_not]
  omega

theorem parseSign_digit {d : Nat} {t : List Nat} (h : isDigitB d = true) :
    parseSign (d :: t) = (false, d :: t) := by
  simp only [isDigitB, Bool.and_eq_true, decide_eq_true_eq] at h
  have h43 : ¬ d = 43 := by omega
  have h45 : ¬ d = 45 := by omega
  simp only [parseSign, h43, h45, if_false]

theorem parseSigned_digits {lo hi : Int} {l : List Nat}
    (hne : l ≠ []) (hall : l.all isDigitB = true)
    (hlo : lo ≤ 0) (hhi : (decVal l : Int) ≤ hi) :
    parseSigned lo hi l = some ((decVal l : Int)) := by
  obtain ⟨d, t, rfl⟩ := List.exists_cons_of_ne_nil hne
  have hd : isDigitB d = true := by
    rw [List.all_eq_true] at hall
    exact hall d (List.mem_cons_self d t)
  have hv : signedVal false (d :: t) = ((decVal (d :: t) : Int)) := by
    simp [signedVal]
  unfold parseSigned
  rw [parseSign_digit hd]
  dsimp only
  simp only [List.isEmpty_cons, hall, Bool.not_true, Bool.or_false]
  rw [if_neg (by simp), hv]
  rw [if_pos ⟨le_trans hlo (Int.natCast_nonneg _), hhi⟩]

theorem parseI32_digits {l : List Nat} (hne : l ≠ []) (hall : l.all isDigitB = true)
    (hhi : decVal l ≤ 2147483647) : parseI32 l = some ((decVal l : Int)) := by
  unfold parseI32
  exact parseSigned_digits hne hall (by omega) (by exact_mod_cast hhi)

theorem parseI64_digits {l : List Nat} (hne : l ≠ []) (hall : l.all isDigitB = true)
    (hhi : decVal l ≤ 9223372036854775807) : parseI64 l = some ((decVal l : Int)) := by
  unfold parseI64
  exact parseSigned_digits hne hall (by omega) (by exact_mod_cast hhi)

/-! ## Decimal printing and format completeness -/

theorem mapP_error_intro {α β : Type} {p : Parser α} {f : α → β} {i pos : List Nat} {k : ErrKind}
    (hp : p i = .error k pos) : mapP p f i = .error k pos := by
  simp only [mapP, hp]

theorem headNot_cons {p : Nat → Bool} {b : Nat} {l : List Nat} (hb : p b = false) :
    headNot p (b :: l) := hb

theorem decVal_append_digit (l : List Nat) (b : Nat) :
    decVal (l ++ [b]) = decVal l * 10 + (b - 48) := by
  simp [decVal, List.foldl_append]

theorem natToDecAux_spec : ∀ (f n : Nat), n ≤ f →
    (natToDecAux f n).all isDigitB = true ∧ natToDecAux f n ≠ [] ∧
    decVal (natToDecAux f n) = n := by
  intro f
  induction f with
  | zero =>
    intro n hn
    have h0 : n = 0 := by omega
    rw [h0]
    refine ⟨by decide, by decide, by decide⟩
  | succ f ih =>
    intro n hn
    rw [natToDecAux]
    split
    · rename_i h
      refine ⟨?_, by simp, ?_⟩
      · simp only [List.all_cons, List.all_nil, Bool.and_true, isDigitB]
        simp only [Bool.and_eq_true, decide_eq_true_eq]
        omega
      · simp [decVal]
    · rename_i h
      have hlt : n / 10 < n := Nat.div_lt_self (by omega) (by omega)
      obtain ⟨ha, hne, hv⟩ := ih (n / 10) (by omega)
      refine ⟨?_, by simp, ?_⟩
      · rw [List.all_append, ha]
        simp only [Bool.true_and, List.all_cons, List.all_nil, Bool.and_true, isDigitB]
        simp only [Bool.and_eq_true, decide_eq_true_eq]
        omega
      · rw [decVal_append_digit, hv]
        omega

theorem natToDec_spec (n : Nat) :
    (natToDec n).all isDigitB = true ∧ natToDec n ≠ [] ∧ decVal (natToDec n) = n :=
  natToDecAux_spec n n (Nat.le_refl n)

theorem digits_headNot {l r : List Nat} (hne : l ≠ []) (hall : l.all isDigitB = true) :
    headNot isWSB (l ++ r) := by
  obtain ⟨d, t, rfl⟩ := List.exists_cons_of_ne_nil hne
  rw [List.all_eq_true] at hall
  exact headNot_cons (isDigitB_not_ws (hall d (List.mem_cons_self d t)))

theorem digitP_span {l r : List Nat} (hne : l ≠ []) (hall : l.all isDigitB = true)
    (hr : headNot isDigitB r) : digitP (l ++ r) = .done r l := by
  unfold digitP
  exact charClass1_span hne (List.all_eq_true.mp hall) hr

theorem digits_from_utf8 {l : List Nat} (hall : l.all isDigitB = true) :
    from_utf8 l = some l := by
  rw [List.all_eq_true] at hall
  exact from_utf8_ascii fun b hb => isDigitB_le b (hall b hb)

/-- Parsing of a printed `i32`-ranged number followed by a non-digit. -/
theorem int_digits_done {n : Nat} {r : List Nat} (hn : n ≤ 2147483647)
    (hr : headNot isDigitB r) :
    mapRes (mapRes digitP from_utf8) parseI32 (natToDec n ++ r) = .done r ((n : Int)) := by
  obtain ⟨ha, hne, hv⟩ := natToDec_spec n
  refine mapRes_done_intro (mapRes_done_intro (digitP_span hne ha hr) (digits_from_utf8 ha)) ?_
  rw [parseI32_digits hne ha (by omega), hv]

/-- Parsing of a printed `i64`-ranged number followed by a non-digit. -/
theorem int64_digits_done {n : Nat} {r : List Nat} (hn : n ≤ 9223372036854775807)
    (hr : headNot isDigitB r) :
    mapRes (mapRes digitP from_utf8) parseI64 (natToDec n ++ r) = .done r ((n : Int)) := by
  obtain ⟨ha, hne, hv⟩ := natToDec_spec n
  refine mapRes_done_intro (mapRes_done_intro (digitP_span hne ha hr) (digits_from_utf8 ha)) ?_
  rw [parseI64_digits hne ha (by omega), hv]

theorem format_version_complete {maj mn : Nat} {r : List Nat}
    (hmaj : maj ≤ 2147483647) (hmn : mn ≤ 2147483647) (hr : headNot isDigitB r) :
    format_version (natToDec maj ++ ([46] ++ (natToDec mn ++ r))) =
      .done r { major := (maj : Int), minor := (mn : Int) } := by
  unfold format_version
  refine pseq_done_intro (int_digits_done hmaj (headNot_cons (by decide))) ?_
  have hdot : bytes "." = [46] := by decide
  refine pseq_done_intro (by rw [hdot]; exact tagP_self) ?_
  exact mapP_done_intro (int_digits_done hmn hr)

theorem kind_alt_complete (kind : FormatKind) (rest : List Nat) :
    altP [mapP (tagP (bytes "ascii")) (fun _ => FormatKind.Ascii),
          mapP (tagP (bytes "binary_big_endian")) (fun _ => FormatKind.BigEndian),
          mapP (tagP (bytes "binary_little_endian")) (fun _ => FormatKind.LittleEndian)]
      (kindBytes kind ++ rest) = .done rest kind := by
  cases kind
  · exact altP_head_done (mapP_done_intro tagP_self)
  · rw [altP_tail (mapP_error_intro (tagP_mismatch_append (by decide) (by decide) rest))]
    exact altP_head_done (mapP_done_intro tagP_self)
  · rw [altP_tail (mapP_error_intro (tagP_mismatch_append (by decide) (by decide) rest))]
    rw [altP_tail (mapP_error_intro (tagP_mismatch_append (by decide) (by decide) rest))]
    exact altP_head_done (mapP_done_intro tagP_self)

theorem kindBytes_headNot (kind : FormatKind) (r : List Nat) :
    headNot isWSB (kindBytes kind ++ r) := by
  cases kind
  · rw [show kindBytes FormatKind.Ascii = 97 :: bytes "scii" from by decide,
       List.cons_append]
    exact headNot_cons (by decide)
  · rw [show kindBytes FormatKind.BigEndian = 98 :: bytes "inary_big_endian" from by decide,
       List.cons_append]
    exact headNot_cons (by decide)
  · rw [show kindBytes FormatKind.LittleEndian = 98 :: bytes "inary_little_endian" from by decide,
       List.cons_append]
    exact headNot_cons (by decide)

theorem ws_span {r : List Nat} (b : Nat) (hb : isWSB b = true) (hr : headNot isWSB r) :
    multispaceP (b :: r) = .done r [b] := by
  show charClass1 .MultiSpace isWSB ([b] ++ r) = .done r [b]
  exact charClass1_span (List.cons_ne_nil b [])
    (by intro x hx; simp at hx; rw [hx]; exact hb) hr

theorem format_complete (kind : FormatKind) (maj mn : Nat) (rest : List Nat)
    (hmaj : maj ≤ 2147483647) (hmn : mn ≤ 2147483647) (hrest : headNot isWSB rest) :
    format (bytes "format" ++ ([32] ++ (kindBytes kind ++ ([32] ++ (natToDec maj ++
        ([46] ++ (natToDec mn ++ ([10] ++ rest)))))))) =
      .done rest { kind := kind, version := { major := (maj : Int), minor := (mn : Int) } } := by
  unfold format
  refine pseq_done_intro tagP_self ?_
  refine pseq_done_intro (ws_span 32 (by decide) (kindBytes_headNot kind _)) ?_
  refine pseq_done_intro (kind_alt_complete kind _) ?_
  have hd := natToDec_spec maj
  refine pseq_done_intro (ws_span 32 (by decide)
    (@digits_headNot (natToDec maj) ([46] ++ (natToDec mn ++ ([10] ++ rest))) hd.2.1 hd.1)) ?_
  refine pseq_done_intro (format_version_complete hmaj hmn (headNot_cons (by decide))) ?_
  exact mapP_done_intro (ws_span 10 (by decide) hrest)

/-! ## Header inversion -/

theorem element_done_props {i r : List Nat} {e : Element}
    (h : element i = .done r e) : e.properties ≠ [] := by
  unfold element at h
  obtain ⟨i1, _, _, h⟩ := pseq_done h
  obtain ⟨i2, _, _, h⟩ := pseq_done h
  obtain ⟨i3, _, _, h⟩ := pseq_done h
  obtain ⟨i4, _, _, h⟩ := pseq_done h
  obtain ⟨i5, _, _, h⟩ := pseq_done h
  obtain ⟨i6, _, _, h⟩ := pseq_done h
  obtain ⟨props, hm, he⟩ := mapP_done h
  rw [he]
  exact many1P_ne_nil hm

theorem header_done_parts {i r : List Nat} {h : Header} (hd : header i = .done r h) :
    ∃ i1 i2 i3 i4 i5 i6 t1 ws1 fmt cs es t2 ws2,
      tagP (bytes "ply") i = .done i1 t1 ∧
      multispaceP i1 = .done i2 ws1 ∧
      format i2 = .done i3 fmt ∧
      many0P comment (i3.length + 1) i3 = .done i4 cs ∧
      many1P element (i4.length + 1) i4 = .done i5 es ∧
      tagP (bytes "end_header") i5 = .done i6 t2 ∧
      multispaceP i6 = .done r ws2 ∧
      h = { comments := cs, format := fmt, elements := es } := by
  unfold header at hd
  obtain ⟨i1, t1, h1, hd⟩ := pseq_done hd
  obtain ⟨i2, ws1, h2, hd⟩ := pseq_done hd
  obtain ⟨i3, fmt, h3, hd⟩ := pseq_done hd
  obtain ⟨i4, cs, h4, hd⟩ := pseq_done hd
  obtain ⟨i5, es, h5, hd⟩ := pseq_done hd
  obtain ⟨i6, t2, h6, hd⟩ := pseq_done hd
  obtain ⟨ws2, h7, hh⟩ := mapP_done hd
  exact ⟨i1, i2, i3, i4, i5, i6, t1, ws1, fmt, cs, es, t2, ws2,
    h1, h2, h3, h4, h5, h6, h7, hh⟩

/-! ## ascii_value inversion -/

theorem from_utf8_some {l m : List Nat} (h : from_utf8 l = some m) : m = l := by
  unfold from_utf8 at h
  split at h
  · injection h with h1; exact h1.symm
  · simp at h

theorem tokenByte_true_iff (b : Nat) : tokenByte b = true ↔ (b ≠ 32 ∧ b ≠ 10) := by
  have hb : bytes " \n" = [32, 10] := by decide
  simp [tokenByte, hb]

theorem ascii_value_float32_done {input rest : List Nat} {v : Value}
    (h : ascii_value input ValueKind.Float32 = .ret (.done rest v)) :
    rest = (input.dropWhile tokenByte).dropWhile isWSB ∧
    (∃ q, v = .float32 q ∧ parseF32 (input.takeWhile tokenByte) = some q) := by
  unfold ascii_value at h
  cases htok : (pseq (mapRes (isNotP (bytes " \n")) from_utf8)
      (fun t => mapP multispaceP (fun _ => t))) input with
  | done remaining out =>
    rw [htok] at h
    obtain ⟨r1, tok0, hnot, hms⟩ := pseq_done htok
    obtain ⟨tok1, hnot1, hutf⟩ := mapRes_done hnot
    obtain ⟨ws, hms1, hout⟩ := mapP_done hms
    unfold isNotP at hnot1
    obtain ⟨htk, hdr, _⟩ := charClass1_done hnot1
    unfold multispaceP at hms1
    obtain ⟨hws, hrest, _⟩ := charClass1_done hms1
    have htok0 : tok0 = input.takeWhile tokenByte := by
      rw [from_utf8_some hutf, htk]; rfl
    have hout2 : out = input.takeWhile tokenByte := by rw [hout, htok0]
    have hrest2 : remaining = (input.dropWhile tokenByte).dropWhile isWSB := by
      rw [hrest, hdr]; rfl
    dsimp only at h
    cases hpf : parseF32 out with
    | some q =>
      rw [hpf] at h
      injection h with h1
      injection h1 with h2 h3
      exact ⟨by rw [← h2, hrest2], q, h3.symm, by rw [← hout2, hpf]⟩
    | none => rw [hpf] at h; simp at h
  | error k pos => rw [htok] at h; simp at h
  | incomplete n => rw [htok] at h; simp at h

/-! ## Claim theorems: concrete evaluations -/

set_option maxRecDepth 100000 in
/-- C1: the spec's end-to-end example.  The header half of the claim holds:
`header` parses the input to one element `vertex` with count 1 and three
`Scalar(Float32)` properties named `x`, `y`, `z`.  The decoding half fails
on the code: `body` decodes only a single `Float32` scalar (the first
token, value 1.0) and leaves the bytes `2.0 3.0\n` unconsumed, instead of
producing one record `[1.0, 2.0, 3.0]`. -/
theorem c1_header_ok_but_body_single_scalar :
    header c1input = .done c1body c1hdr ∧
    body c1body c1hdr = .ret (.done (bytes "2.0 3.0\n") (Value.float32 1)) ∧
    bytes "2.0 3.0\n" ≠ [] := by
  refine ⟨by decide, by decide, by decide⟩

/-- C2: the claim that binary decoding reads a fixed-width byte sequence
in the stated byte order is false of the code: for every input and every
declared data type, `value` under either binary format kind executes
`unimplemented!()` and aborts instead of decoding. -/
theorem c2_binary_decode_panics :
    ∀ (input : List Nat) (vk : ValueKind),
      value input FormatKind.BigEndian vk = .panicked ∧
      value input FormatKind.LittleEndian vk = .panicked := by
  intro input vk
  exact ⟨rfl, rfl⟩

/-- C3: the claim that body decoding is a total-or-failing function that
never panics is false of the code: an ASCII token that is not a valid
`f32` panics through `f32::from_str(..).unwrap()`, any non-`Float32`
ASCII scalar kind hits `unimplemented!()`, and both binary format kinds
hit `unimplemented!()`. -/
theorem c3_decoder_panics :
    ascii_value (bytes "abc ") ValueKind.Float32 = .panicked ∧
    ascii_value (bytes "3 ") ValueKind.Int32 = .panicked ∧
    (∀ (input : List Nat) (vk : ValueKind),
      value input FormatKind.BigEndian vk = .panicked ∧
      value input FormatKind.LittleEndian vk = .panicked) := by
  refine ⟨by decide, by decide, fun input vk => ⟨rfl, rfl⟩⟩

/-- C4: the header half of the claim holds: `property` parses
`property list uchar int32 vertex_indices` to the list property with
count type `UInt8` and element type `Int32`.  The decoding half fails on
the code: `body` ignores the declared list property entirely and decodes
the ASCII body `3 0 1 2` as a single `Float32` scalar with value 3,
leaving `0 1 2\n` unconsumed — no count-prefixed list of `Int32` values
is ever produced. -/
theorem c4_list_property_parsed_not_decoded :
    property (bytes "property list uchar int32 vertex_indices\n") = .done [] c4prop ∧
    body (bytes "3 0 1 2\n") c4hdr = .ret (.done (bytes "0 1 2\n") (Value.float32 3)) := by
  refine ⟨by decide, by decide⟩

/-- C5 counterexample: on the concrete malformed-version header, the
parse fails with nom's generic `Digit` error kind — the same kind any
bare `digit` parser failure yields — positioned at the offending byte `x`
(offset 19), not with a dedicated `InvalidInteger` error (no such error
exists in the code). -/
theorem c5_counterexample :
    header c5input = .error .Digit c5pos ∧
    digitP (bytes "x") = .error .Digit (bytes "x") ∧
    c5input.length - c5pos.length = 19 := by
  refine ⟨by decide, by decide, by decide⟩

/-- C7 counterexample: on the bare inputs `int8` and `int64` the
`data_type` parser does not return the table's data type: nom's `alt!`
propagates the `Incomplete` of the longer tags `uchar` (respectively
`ushort`) tried earlier, so the parse yields `Incomplete`, not
`Int8`/`Int64`. -/
theorem c7_counterexample :
    data_type (bytes "int8") = .incomplete (some 5) ∧
    data_type (bytes "int64") = .incomplete (some 6) := by
  refine ⟨by decide, by decide⟩

/-- C8 counterexample: decoding one ASCII `Float32` scalar from
`1.0  2.0 ` consumes five bytes — the three-byte token `1.0` plus both
following spaces — and not exactly the one token span of three bytes. -/
theorem c8_counterexample :
    ascii_value (bytes "1.0  2.0 ") ValueKind.Float32 =
      .ret (.done (bytes "2.0 ") (Value.float32 1)) ∧
    (bytes "1.0  2.0 ").length - (bytes "2.0 ").length = 5 := by
  refine ⟨by decide, by decide⟩

/-- C10 counterexample: a value sitting at the very end of the buffer
with no trailing whitespace still decodes successfully — `ascii_value` on
the bare buffer `1.0` returns `Done` with the empty remainder, consuming
no whitespace at all (nom 1.x `multispace` succeeds with an empty match
at end of input). -/
theorem c10_counterexample :
    ascii_value (bytes "1.0") ValueKind.Float32 = .ret (.done [] (Value.float32 1)) := by
  decide

/-- C8 amended: under the ASCII format, a successful scalar decode
consumes exactly one token plus the maximal (possibly empty) run of
whitespace following it — not exactly one token span — and the bytes
after that consumed region are returned unchanged as the remainder; under
the binary formats no successful decode exists at all, since `value`
aborts (`unimplemented!()`). -/
theorem c8_ascii_consumes_token5_plus_ws :
    (∀ (input rest : List Nat) (v : Value),
        ascii_value input ValueKind.Float32 = .ret (.done rest v) →
        rest = (input.dropWhile tokenByte).dropWhile isWSB ∧
        input = input.takeWhile tokenByte ++
          ((input.dropWhile tokenByte).takeWhile isWSB ++ rest)) ∧
    (∀ (input : List Nat) (vk : ValueKind),
        value input FormatKind.BigEndian vk = .panicked ∧
        value input FormatKind.LittleEndian vk = .panicked) := by
  constructor
  · intro input rest v h
    obtain ⟨hrest, _⟩ := ascii_value_float32_done h
    refine ⟨hrest, ?_⟩
    rw [hrest, List.takeWhile_append_dropWhile, List.takeWhile_append_dropWhile]
  · intro input vk
    exact ⟨rfl, rfl⟩

/-- C8 witness: on `1.0  2.0 `, the remainder is `2.0 ` — the token `1.0`
and both following spaces are consumed, the suffix returned untouched. -/
theorem c8_witness :
    bytes "2.0 " = ((bytes "1.0  2.0 ").dropWhile tokenByte).dropWhile isWSB ∧
    bytes "1.0  2.0 " = (bytes "1.0  2.0 ").takeWhile tokenByte ++
      (((bytes "1.0  2.0 ").dropWhile tokenByte).takeWhile isWSB ++ bytes "2.0 ") :=
  c8_ascii_consumes_token5_plus_ws.1 (bytes "1.0  2.0 ") (bytes "2.0 ")
    (Value.float32 1) (by decide)

/-- C10 amended: in ASCII body decoding a token is terminated only by a
space (0x20) or newline (0x0A) byte — tab and carriage return do not end
the token — but a successful scalar decode consumes the token plus the
maximal, possibly empty, run of following whitespace: a value sitting at
the very end of the buffer with no trailing whitespace still decodes
successfully (nom 1.x `multispace` succeeds with an empty match at end of
input). -/
theorem c10_token_ends_only_at_space_or_newline :
    ∀ (input rest : List Nat) (v : Value),
      ascii_value input ValueKind.Float32 = .ret (.done rest v) →
      (∀ b ∈ input.takeWhile tokenByte, b ≠ 32 ∧ b ≠ 10) ∧
      tokenByte 9 = true ∧ tokenByte 13 = true ∧
      ∃ ws, ws.all isWSB = true ∧ input = input.takeWhile tokenByte ++ (ws ++ rest) := by
  intro input rest v h
  obtain ⟨hrest, _⟩ := ascii_value_float32_done h
  refine ⟨?_, by decide, by decide, (input.dropWhile tokenByte).takeWhile isWSB, ?_, ?_⟩
  · intro b hb
    exact (tokenByte_true_iff b).mp (List.mem_takeWhile_imp hb)
  · rw [List.all_eq_true]
    intro b hb
    exact List.mem_takeWhile_imp hb
  · rw [hrest, List.takeWhile_append_dropWhile, List.takeWhile_append_dropWhile]

/-- C10 witness: applied to the buffer `1.0` ending with no whitespace —
the decode succeeds, the token is the whole buffer, and the consumed
whitespace run is empty. -/
theorem c10_witness :
    (∀ b ∈ (bytes "1.0").takeWhile tokenByte, b ≠ 32 ∧ b ≠ 10) ∧
    tokenByte 9 = true ∧ tokenByte 13 = true ∧
    ∃ ws, ws.all isWSB = true ∧
      bytes "1.0" = (bytes "1.0").takeWhile tokenByte ++ (ws ++ ([] : List Nat)) :=
  c10_token_ends_only_at_space_or_newline (bytes "1.0") [] (Value.float32 1) (by decide)

/-- C6: every successfully parsed `Header` has at least one element
(`many1!` on `element`) and each element has at least one property
(`many1!` on `property`); and an input whose header section declares zero
elements — the format line directly followed by `end_header`, with any
continuation whatsoever — never parses: it fails with the `Many1` error
at the `end_header` line. -/
theorem c6_header_nonempty_invariants :
    (∀ (i r : List Nat) (h : Header), header i = .done r h →
      h.elements ≠ [] ∧ ∀ e ∈ h.elements, e.properties ≠ []) ∧
    (∀ rest : List Nat, header (zeroElemInput ++ rest) =
      .error .Many1 (bytes "end_header\n" ++ rest)) := by
  constructor
  · intro i r h hd
    obtain ⟨i1, i2, i3, i4, i5, i6, t1, ws1, fmt, cs, es, t2, ws2,
      _, _, _, _, h5, _, _, hh⟩ := header_done_parts hd
    rw [hh]
    refine ⟨many1P_ne_nil h5, ?_⟩
    intro e he
    obtain ⟨i', r', hel⟩ := many1P_mem h5 e he
    exact element_done_props hel
  · intro rest
    have hsplit : zeroElemInput ++ rest =
        bytes "ply" ++ ([10] ++ (bytes "format" ++ ([32] ++ (kindBytes FormatKind.Ascii ++
          ([32] ++ (natToDec 1 ++ ([46] ++ (natToDec 0 ++ ([10] ++
          (bytes "end_header" ++ ([10] ++ rest))))))))))) := by
      have h0 : zeroElemInput =
          bytes "ply" ++ ([10] ++ (bytes "format" ++ ([32] ++ (kindBytes FormatKind.Ascii ++
            ([32] ++ (natToDec 1 ++ ([46] ++ (natToDec 0 ++ ([10] ++
            (bytes "end_header" ++ [10])))))))))) := by decide
      rw [h0]
      simp only [List.append_assoc]
    have hpos : bytes "end_header\n" ++ rest = bytes "end_header" ++ ([10] ++ rest) := by
      have h0 : bytes "end_header\n" = bytes "end_header" ++ [10] := by decide
      rw [h0, List.append_assoc]
    rw [hsplit, hpos]
    unfold header
    refine pseq_error_intro2 tagP_self ?_
    refine pseq_error_intro2 (ws_span 10 (by decide)
      (by rw [show bytes "format" = 102 :: bytes "ormat" from by decide, List.cons_append]
          exact headNot_cons (by decide))) ?_
    refine pseq_error_intro2 (format_complete FormatKind.Ascii 1 0 _ (by omega) (by omega)
      (by rw [show bytes "end_header" = 101 :: bytes "nd_header" from by decide, List.cons_append]
          exact headNot_cons (by decide))) ?_
    have hcomment : comment (bytes "end_header" ++ ([10] ++ rest)) =
        .error .Tag (bytes "end_header" ++ ([10] ++ rest)) := by
      unfold comment
      refine pseq_error_intro1 ?_
      have h1 : bytes "end_header" ++ ([10] ++ rest) =
          (bytes "end_header" ++ [10]) ++ rest := by rw [List.append_assoc]
      rw [h1]
      exact tagP_mismatch_append (by decide) (by decide) rest
    refine pseq_error_intro2 (many0P_stop hcomment) ?_
    have helement : element (bytes "end_header" ++ ([10] ++ rest)) =
        .error .Tag (bytes "end_header" ++ ([10] ++ rest)) := by
      unfold element
      refine pseq_error_intro1 ?_
      have h1 : bytes "end_header" ++ ([10] ++ rest) =
          (bytes "end_header" ++ [10]) ++ rest := by rw [List.append_assoc]
      rw [h1]
      exact tagP_mismatch_append (by decide) (by decide) rest
    exact pseq_error_intro1 (many1P_error helement)

/-- C6 witness: the invariant applied to the end-to-end example's parsed
header, and the zero-element rejection at the empty continuation. -/
theorem c6_witness :
    c1hdr.elements ≠ [] ∧ (∀ e ∈ c1hdr.elements, e.properties ≠ []) ∧
    header (zeroElemInput ++ []) = .error .Many1 (bytes "end_header\n" ++ []) :=
  ⟨(c6_header_nonempty_invariants.1 c1input c1body c1hdr (by decide)).1,
   (c6_header_nonempty_invariants.1 c1input c1body c1hdr (by decide)).2,
   c6_header_nonempty_invariants.2 []⟩

theorem isPrefixOf_append_false2 :
    ∀ {t c : List Nat}, t.isPrefixOf c = false → c.isPrefixOf t = false →
      ∀ rest, t.isPrefixOf (c ++ rest) = false := by
  intro t
  induction t with
  | nil => intro c h _ _; simp [List.isPrefixOf] at h
  | cons a t ih =>
    intro c h1 h2 rest
    cases c with
    | nil => simp [List.isPrefixOf] at h2
    | cons b c' =>
      rw [List.cons_append]
      by_cases hab : a = b
      · subst hab
        simp only [List.isPrefixOf_cons₂, beq_self_eq_true, Bool.true_and] at h1 h2 ⊢
        exact ih h1 h2 rest
      · simp only [List.isPrefixOf_cons₂]
        rw [Bool.and_eq_false_iff]
        left
        exact beq_eq_false_iff_ne.mpr hab

theorem tagP_diverge {t c0 : List Nat} (h1 : t.isPrefixOf c0 = false)
    (h2 : c0.isPrefixOf t = false) (hlen : t.length ≤ c0.length + 2)
    (c d : Nat) (rest : List Nat) :
    tagP t (c0 ++ (c :: d :: rest)) = .error .Tag (c0 ++ (c :: d :: rest)) := by
  apply tagP_mismatch
  · rw [List.length_append]
    simp only [List.length_cons]
    omega
  · exact isPrefixOf_append_false2 h1 h2 _

/-- C7 amended: the alias table holds for each of the eighteen data-type
spellings whenever the spelling is followed by a space and at least two
further bytes, as it always is inside a header (a property or list
declaration continues with at least a one-byte name and a newline); the
most specific spelling wins, e.g. `int8` yields `Int8` and never a
partial match of the bare `int` alias.  On a bare spelling at the end of
the input the parser instead returns `Incomplete` (see the
counterexample). -/
theorem c7_data_type_alias_table :
    ∀ (c d : Nat) (rest : List Nat),
      data_type (bytes "char " ++ (c :: d :: rest)) = .done (32 :: c :: d :: rest) ValueKind.Int8 ∧
      data_type (bytes "int8 " ++ (c :: d :: rest)) = .done (32 :: c :: d :: rest) ValueKind.Int8 ∧
      data_type (bytes "uchar " ++ (c :: d :: rest)) = .done (32 :: c :: d :: rest) ValueKind.UInt8 ∧
      data_type (bytes "uint8 " ++ (c :: d :: rest)) = .done (32 :: c :: d :: rest) ValueKind.UInt8 ∧
      data_type (bytes "short " ++ (c :: d :: rest)) = .done (32 :: c :: d :: rest) ValueKind.Int16 ∧
      data_type (bytes "int16 " ++ (c :: d :: rest)) = .done (32 :: c :: d :: rest) ValueKind.Int16 ∧
      data_type (bytes "ushort " ++ (c :: d :: rest)) = .done (32 :: c :: d :: rest) ValueKind.UInt16 ∧
      data_type (bytes "uint16 " ++ (c :: d :: rest)) = .done (32 :: c :: d :: rest) ValueKind.UInt16 ∧
      data_type (bytes "int " ++ (c :: d :: rest)) = .done (32 :: c :: d :: rest) ValueKind.Int32 ∧
      data_type (bytes "int32 " ++ (c :: d :: rest)) = .done (32 :: c :: d :: rest) ValueKind.Int32 ∧
      data_type (bytes "uint " ++ (c :: d :: rest)) = .done (32 :: c :: d :: rest) ValueKind.UInt32 ∧
      data_type (bytes "uint32 " ++ (c :: d :: rest)) = .done (32 :: c :: d :: rest) ValueKind.UInt32 ∧
      data_type (bytes "int64 " ++ (c :: d :: rest)) = .done (32 :: c :: d :: rest) ValueKind.Int64 ∧
      data_type (bytes "uint64 " ++ (c :: d :: rest)) = .done (32 :: c :: d :: rest) ValueKind.UInt64 ∧
      data_type (bytes "float " ++ (c :: d :: rest)) = .done (32 :: c :: d :: rest) ValueKind.Float32 ∧
      data_type (bytes "float32 " ++ (c :: d :: rest)) = .done (32 :: c :: d :: rest) ValueKind.Float32 ∧
      data_type (bytes "double " ++ (c :: d :: rest)) = .done (32 :: c :: d :: rest) ValueKind.Float64 ∧
      data_type (bytes "float64 " ++ (c :: d :: rest)) = .done (32 :: c :: d :: rest) ValueKind.Float64 := by
  intro c d rest
  refine ⟨?_, ?_, ?_, ?_, ?_, ?_, ?_, ?_, ?_, ?_, ?_, ?_, ?_, ?_, ?_, ?_, ?_, ?_⟩
  · unfold data_type
    rw [show bytes "char " = bytes "char" ++ [32] from by decide, List.append_assoc]
    exact altP_head_done (mapP_done_intro tagP_self)
  · unfold data_type
    rw [altP_tail (mapP_error_intro (tagP_diverge (by decide) (by decide) (by decide) c d rest))]
    rw [altP_tail (mapP_error_intro (tagP_diverge (by decide) (by decide) (by decide) c d rest))]
    rw [altP_tail (mapP_error_intro (tagP_diverge (by decide) (by decide) (by decide) c d rest))]
    rw [altP_tail (mapP_error_intro (tagP_diverge (by decide) (by decide) (by decide) c d rest))]
    rw [altP_tail (mapP_error_intro (tagP_diverge (by decide) (by decide) (by decide) c d rest))]
    rw [altP_tail (mapP_error_intro (tagP_diverge (by decide) (by decide) (by decide) c d rest))]
    rw [altP_tail (mapP_error_intro (tagP_diverge (by decide) (by decide) (by decide) c d rest))]
    rw [show bytes "int8 " = bytes "int8" ++ [32] from by decide, List.append_assoc]
    exact altP_head_done (mapP_done_intro tagP_self)
  · unfold data_type
    rw [altP_tail (mapP_error_intro (tagP_diverge (by decide) (by decide) (by decide) c d rest))]
    rw [show bytes "uchar " = bytes "uchar" ++ [32] from by decide, List.append_assoc]
    exact altP_head_done (mapP_done_intro tagP_self)
  · unfold data_type
    rw [altP_tail (mapP_error_intro (tagP_diverge (by decide) (by decide) (by decide) c d rest))]
    rw [altP_tail (mapP_error_intro (tagP_diverge (by decide) (by decide) (by decide) c d rest))]
    rw [altP_tail (mapP_error_intro (tagP_diverge (by decide) (by decide) (by decide) c d rest))]
    rw [altP_tail (mapP_error_intro (tagP_diverge (by decide) (by decide) (by decide) c d rest))]
    rw [altP_tail (mapP_error_intro (tagP_diverge (by decide) (by decide) (by decide) c d rest))]
    rw [altP_tail (mapP_error_intro (tagP_diverge (by decide) (by decide) (by decide) c d rest))]
    rw [altP_tail (mapP_error_intro (tagP_diverge (by decide) (by decide) (by decide) c d rest))]
    rw [altP_tail (mapP_error_intro (tagP_diverge (by decide) (by decide) (by decide) c d rest))]
    rw [altP_tail (mapP_error_intro (tagP_diverge (by decide) (by decide) (by decide) c d rest))]
    rw [show bytes "uint8 " = bytes "uint8" ++ [32] from by decide, List.append_assoc]
    exact altP_head_done (mapP_done_intro tagP_self)
  · unfold data_type
    rw [altP_tail (mapP_error_intro (tagP_diverge (by decide) (by decide) (by decide) c d rest))]
    rw [altP_tail (mapP_error_intro (tagP_diverge (by decide) (by decide) (by decide) c d rest))]
    rw [show bytes "short " = bytes "short" ++ [32] from by decide, List.append_assoc]
    exact altP_head_done (mapP_done_intro tagP_self)
  · unfold data_type
    rw [altP_tail (mapP_error_intro (tagP_diverge (by decide) (by decide) (by decide) c d rest))]
    rw [altP_tail (mapP_error_intro (tagP_diverge (by decide) (by decide) (by decide) c d rest))]
    rw [altP_tail (mapP_error_intro (tagP_diverge (by decide) (by decide) (by decide) c d rest))]
    rw [altP_tail (mapP_error_intro (tagP_diverge (by decide) (by decide) (by decide) c d rest))]
    rw [altP_tail (mapP_error_intro (tagP_diverge (by decide) (by decide) (by decide) c d rest))]
    rw [altP_tail (mapP_error_intro (tagP_diverge (by decide) (by decide) (by decide) c d rest))]
    rw [show bytes "int16 " = bytes "int16" ++ [32] from by decide, List.append_assoc]
    exact altP_head_done (mapP_done_intro tagP_self)
  · unfold data_type
    rw [altP_tail (mapP_error_intro (tagP_diverge (by decide) (by decide) (by decide) c d rest))]
    rw [altP_tail (mapP_error_intro (tagP_diverge (by decide) (by decide) (by decide) c d rest))]
    rw [altP_tail (mapP_error_intro (tagP_diverge (by decide) (by decide) (by decide) c d rest))]
    rw [show bytes "ushort " = bytes "ushort" ++ [32] from by decide, List.append_assoc]
    exact altP_head_done (mapP_done_intro tagP_self)
  · unfold data_type
    rw [altP_tail (mapP_error_intro (tagP_diverge (by decide) (by decide) (by decide) c d rest))]
    rw [altP_tail (mapP_error_intro (tagP_diverge (by decide) (by decide) (by decide) c d rest))]
    rw [altP_tail (mapP_error_intro (tagP_diverge (by decide) (by decide) (by decide) c d rest))]
    rw [altP_tail (mapP_error_intro (tagP_diverge (by decide) (by decide) (by decide) c d rest))]
    rw [altP_tail (mapP_error_intro (tagP_diverge (by decide) (by decide) (by decide) c d rest))]
    rw [altP_tail (mapP_error_intro (tagP_diverge (by decide) (by decide) (by decide) c d rest))]
    rw [altP_tail (mapP_error_intro (tagP_diverge (by decide) (by decide) (by decide) c d rest))]
    rw [altP_tail (mapP_error_intro (tagP_diverge (by decide) (by decide) (by decide) c d rest))]
    rw [altP_tail (mapP_error_intro (tagP_diverge (by decide) (by decide) (by decide) c d rest))]
    rw [altP_tail (mapP_error_intro (tagP_diverge (by decide) (by decide) (by decide) c d rest))]
    rw [show bytes "uint16 " = bytes "uint16" ++ [32] from by decide, List.append_assoc]
    exact altP_head_done (mapP_done_intro tagP_self)
  · unfold data_type
    rw [altP_tail (mapP_error_intro (tagP_diverge (by decide) (by decide) (by decide) c d rest))]
    rw [altP_tail (mapP_error_intro (tagP_diverge (by decide) (by decide) (by decide) c d rest))]
    rw [altP_tail (mapP_error_intro (tagP_diverge (by decide) (by decide) (by decide) c d rest))]
    rw [altP_tail (mapP_error_intro (tagP_diverge (by decide) (by decide) (by decide) c d rest))]
    rw [altP_tail (mapP_error_intro (tagP_diverge (by decide) (by decide) (by decide) c d rest))]
    rw [altP_tail (mapP_error_intro (tagP_diverge (by decide) (by decide) (by decide) c d rest))]
    rw [altP_tail (mapP_error_intro (tagP_diverge (by decide) (by decide) (by decide) c d rest))]
    rw [altP_tail (mapP_error_intro (tagP_diverge (by decide) (by decide) (by decide) c d rest))]
    rw [show bytes "int " = bytes "int" ++ [32] from by decide, List.append_assoc]
    exact altP_head_done (mapP_done_intro tagP_self)
  · unfold data_type
    rw [altP_tail (mapP_error_intro (tagP_diverge (by decide) (by decide) (by decide) c d rest))]
    rw [altP_tail (mapP_error_intro (tagP_diverge (by decide) (by decide) (by decide) c d rest))]
    rw [altP_tail (mapP_error_intro (tagP_diverge (by decide) (by decide) (by decide) c d rest))]
    rw [altP_tail (mapP_error_intro (tagP_diverge (by decide) (by decide) (by decide) c d rest))]
    rw [altP_tail (mapP_error_intro (tagP_diverge (by decide) (by decide) (by decide) c d rest))]
    rw [show bytes "int32 " = bytes "int32" ++ [32] from by decide, List.append_assoc]
    exact altP_head_done (mapP_done_intro tagP_self)
  · unfold data_type
    rw [altP_tail (mapP_error_intro (tagP_diverge (by decide) (by decide) (by decide) c d rest))]
    rw [altP_tail (mapP_error_intro (tagP_diverge (by decide) (by decide) (by decide) c d rest))]
    rw [altP_tail (mapP_error_intro (tagP_diverge (by decide) (by decide) (by decide) c d rest))]
    rw [altP_tail (mapP_error_intro (tagP_diverge (by decide) (by decide) (by decide) c d rest))]
    rw [altP_tail (mapP_error_intro (tagP_diverge (by decide) (by decide) (by decide) c d rest))]
    rw [altP_tail (mapP_error_intro (tagP_diverge (by decide) (by decide) (by decide) c d rest))]
    rw [altP_tail (mapP_error_intro (tagP_diverge (by decide) (by decide) (by decide) c d rest))]
    rw [altP_tail (mapP_error_intro (tagP_diverge (by decide) (by decide) (by decide) c d rest))]
    rw [altP_tail (mapP_error_intro (tagP_diverge (by decide) (by decide) (by decide) c d rest))]
    rw [altP_tail (mapP_error_intro (tagP_diverge (by decide) (by decide) (by decide) c d rest))]
    rw [altP_tail (mapP_error_intro (tagP_diverge (by decide) (by decide) (by decide) c d rest))]
    rw [altP_tail (mapP_error_intro (tagP_diverge (by decide) (by decide) (by decide) c d rest))]
    rw [altP_tail (mapP_error_intro (tagP_diverge (by decide) (by decide) (by decide) c d rest))]
    rw [show bytes "uint " = bytes "uint" ++ [32] from by decide, List.append_assoc]
    exact altP_head_done (mapP_done_intro tagP_self)
  · unfold data_type
    rw [altP_tail (mapP_error_intro (tagP_diverge (by decide) (by decide) (by decide) c d rest))]
    rw [altP_tail (mapP_error_intro (tagP_diverge (by decide) (by decide) (by decide) c d rest))]
    rw [altP_tail (mapP_error_intro (tagP_diverge (by decide) (by decide) (by decide) c d rest))]
    rw [altP_tail (mapP_error_intro (tagP_diverge (by decide) (by decide) (by decide) c d rest))]
    rw [altP_tail (mapP_error_intro (tagP_diverge (by decide) (by decide) (by decide) c d rest))]
    rw [altP_tail (mapP_error_intro (tagP_diverge (by decide) (by decide) (by decide) c d rest))]
    rw [altP_tail (mapP_error_intro (tagP_diverge (by decide) (by decide) (by decide) c d rest))]
    rw [altP_tail (mapP_error_intro (tagP_diverge (by decide) (by decide) (by decide) c d rest))]
    rw [altP_tail (mapP_error_intro (tagP_diverge (by decide) (by decide) (by decide) c d rest))]
    rw [altP_tail (mapP_error_intro (tagP_diverge (by decide) (by decide) (by decide) c d rest))]
    rw [altP_tail (mapP_error_intro (tagP_diverge (by decide) (by decide) (by decide) c d rest))]
    rw [show bytes "uint32 " = bytes "uint32" ++ [32] from by decide, List.append_assoc]
    exact altP_head_done (mapP_done_intro tagP_self)
  · unfold data_type
    rw [altP_tail (mapP_error_intro (tagP_diverge (by decide) (by decide) (by decide) c d rest))]
    rw [altP_tail (mapP_error_intro (tagP_diverge (by decide) (by decide) (by decide) c d rest))]
    rw [altP_tail (mapP_error_intro (tagP_diverge (by decide) (by decide) (by decide) c d rest))]
    rw [altP_tail (mapP_error_intro (tagP_diverge (by decide) (by decide) (by decide) c d rest))]
    rw [show bytes "int64 " = bytes "int64" ++ [32] from by decide, List.append_assoc]
    exact altP_head_done (mapP_done_intro tagP_self)
  · unfold data_type
    rw [altP_tail (mapP_error_intro (tagP_diverge (by decide) (by decide) (by decide) c d rest))]
    rw [altP_tail (mapP_error_intro (tagP_diverge (by decide) (by decide) (by decide) c d rest))]
    rw [altP_tail (mapP_error_intro (tagP_diverge (by decide) (by decide) (by decide) c d rest))]
    rw [altP_tail (mapP_error_intro (tagP_diverge (by decide) (by decide) (by decide) c d rest))]
    rw [altP_tail (mapP_error_intro (tagP_diverge (by decide) (by decide) (by decide) c d rest))]
    rw [altP_tail (mapP_error_intro (tagP_diverge (by decide) (by decide) (by decide) c d rest))]
    rw [altP_tail (mapP_error_intro (tagP_diverge (by decide) (by decide) (by decide) c d rest))]
    rw [altP_tail (mapP_error_intro (tagP_diverge (by decide) (by decide) (by decide) c d rest))]
    rw [altP_tail (mapP_error_intro (tagP_diverge (by decide) (by decide) (by decide) c d rest))]
    rw [altP_tail (mapP_error_intro (tagP_diverge (by decide) (by decide) (by decide) c d rest))]
    rw [altP_tail (mapP_error_intro (tagP_diverge (by decide) (by decide) (by decide) c d rest))]
    rw [altP_tail (mapP_error_intro (tagP_diverge (by decide) (by decide) (by decide) c d rest))]
    rw [show bytes "uint64 " = bytes "uint64" ++ [32] from by decide, List.append_assoc]
    exact altP_head_done (mapP_done_intro tagP_self)
  · unfold data_type
    rw [altP_tail (mapP_error_intro (tagP_diverge (by decide) (by decide) (by decide) c d rest))]
    rw [altP_tail (mapP_error_intro (tagP_diverge (by decide) (by decide) (by decide) c d rest))]
    rw [altP_tail (mapP_error_intro (tagP_diverge (by decide) (by decide) (by decide) c d rest))]
    rw [altP_tail (mapP_error_intro (tagP_diverge (by decide) (by decide) (by decide) c d rest))]
    rw [altP_tail (mapP_error_intro (tagP_diverge (by decide) (by decide) (by decide) c d rest))]
    rw [altP_tail (mapP_error_intro (tagP_diverge (by decide) (by decide) (by decide) c d rest))]
    rw [altP_tail (mapP_error_intro (tagP_diverge (by decide) (by decide) (by decide) c d rest))]
    rw [altP_tail (mapP_error_intro (tagP_diverge (by decide) (by decide) (by decide) c d rest))]
    rw [altP_tail (mapP_error_intro (tagP_diverge (by decide) (by decide) (by decide) c d rest))]
    rw [altP_tail (mapP_error_intro (tagP_diverge (by decide) (by decide) (by decide) c d rest))]
    rw [altP_tail (mapP_error_intro (tagP_diverge (by decide) (by decide) (by decide) c d rest))]
    rw [altP_tail (mapP_error_intro (tagP_diverge (by decide) (by decide) (by decide) c d rest))]
    rw [altP_tail (mapP_error_intro (tagP_diverge (by decide) (by decide) (by decide) c d rest))]
    rw [altP_tail (mapP_error_intro (tagP_diverge (by decide) (by decide) (by decide) c d rest))]
    rw [altP_tail (mapP_error_intro (tagP_diverge (by decide) (by decide) (by decide) c d rest))]
    rw [altP_tail (mapP_error_intro (tagP_diverge (by decide) (by decide) (by decide) c d rest))]
    rw [show bytes "float " = bytes "float" ++ [32] from by decide, List.append_assoc]
    exact altP_head_done (mapP_done_intro tagP_self)
  · unfold data_type
    rw [altP_tail (mapP_error_intro (tagP_diverge (by decide) (by decide) (by decide) c d rest))]
    rw [altP_tail (mapP_error_intro (tagP_diverge (by decide) (by decide) (by decide) c d rest))]
    rw [altP_tail (mapP_error_intro (tagP_diverge (by decide) (by decide) (by decide) c d rest))]
    rw [altP_tail (mapP_error_intro (tagP_diverge (by decide) (by decide) (by decide) c d rest))]
    rw [altP_tail (mapP_error_intro (tagP_diverge (by decide) (by decide) (by decide) c d rest))]
    rw [altP_tail (mapP_error_intro (tagP_diverge (by decide) (by decide) (by decide) c d rest))]
    rw [altP_tail (mapP_error_intro (tagP_diverge (by decide) (by decide) (by decide) c d rest))]
    rw [altP_tail (mapP_error_intro (tagP_diverge (by decide) (by decide) (by decide) c d rest))]
    rw [altP_tail (mapP_error_intro (tagP_diverge (by decide) (by decide) (by decide) c d rest))]
    rw [altP_tail (mapP_error_intro (tagP_diverge (by decide) (by decide) (by decide) c d rest))]
    rw [altP_tail (mapP_error_intro (tagP_diverge (by decide) (by decide) (by decide) c d rest))]
    rw [altP_tail (mapP_error_intro (tagP_diverge (by decide) (by decide) (by decide) c d rest))]
    rw [altP_tail (mapP_error_intro (tagP_diverge (by decide) (by decide) (by decide) c d rest))]
    rw [altP_tail (mapP_error_intro (tagP_diverge (by decide) (by decide) (by decide) c d rest))]
    rw [show bytes "float32 " = bytes "float32" ++ [32] from by decide, List.append_assoc]
    exact altP_head_done (mapP_done_intro tagP_self)
  · unfold data_type
    rw [altP_tail (mapP_error_intro (tagP_diverge (by decide) (by decide) (by decide) c d rest))]
    rw [altP_tail (mapP_error_intro (tagP_diverge (by decide) (by decide) (by decide) c d rest))]
    rw [altP_tail (mapP_error_intro (tagP_diverge (by decide) (by decide) (by decide) c d rest))]
    rw [altP_tail (mapP_error_intro (tagP_diverge (by decide) (by decide) (by decide) c d rest))]
    rw [altP_tail (mapP_error_intro (tagP_diverge (by decide) (by decide) (by decide) c d rest))]
    rw [altP_tail (mapP_error_intro (tagP_diverge (by decide) (by decide) (by decide) c d rest))]
    rw [altP_tail (mapP_error_intro (tagP_diverge (by decide) (by decide) (by decide) c d rest))]
    rw [altP_tail (mapP_error_intro (tagP_diverge (by decide) (by decide) (by decide) c d rest))]
    rw [altP_tail (mapP_error_intro (tagP_diverge (by decide) (by decide) (by decide) c d rest))]
    rw [altP_tail (mapP_error_intro (tagP_diverge (by decide) (by decide) (by decide) c d rest))]
    rw [altP_tail (mapP_error_intro (tagP_diverge (by decide) (by decide) (by decide) c d rest))]
    rw [altP_tail (mapP_error_intro (tagP_diverge (by decide) (by decide) (by decide) c d rest))]
    rw [altP_tail (mapP_error_intro (tagP_diverge (by decide) (by decide) (by decide) c d rest))]
    rw [altP_tail (mapP_error_intro (tagP_diverge (by decide) (by decide) (by decide) c d rest))]
    rw [altP_tail (mapP_error_intro (tagP_diverge (by decide) (by decide) (by decide) c d rest))]
    rw [altP_tail (mapP_error_intro (tagP_diverge (by decide) (by decide) (by decide) c d rest))]
    rw [altP_tail (mapP_error_intro (tagP_diverge (by decide) (by decide) (by decide) c d rest))]
    rw [show bytes "double " = bytes "double" ++ [32] from by decide, List.append_assoc]
    exact altP_head_done (mapP_done_intro tagP_self)
  · unfold data_type
    rw [altP_tail (mapP_error_intro (tagP_diverge (by decide) (by decide) (by decide) c d rest))]
    rw [altP_tail (mapP_error_intro (tagP_diverge (by decide) (by decide) (by decide) c d rest))]
    rw [altP_tail (mapP_error_intro (tagP_diverge (by decide) (by decide) (by decide) c d rest))]
    rw [altP_tail (mapP_error_intro (tagP_diverge (by decide) (by decide) (by decide) c d rest))]
    rw [altP_tail (mapP_error_intro (tagP_diverge (by decide) (by decide) (by decide) c d rest))]
    rw [altP_tail (mapP_error_intro (tagP_diverge (by decide) (by decide) (by decide) c d rest))]
    rw [altP_tail (mapP_error_intro (tagP_diverge (by decide) (by decide) (by decide) c d rest))]
    rw [altP_tail (mapP_error_intro (tagP_diverge (by decide) (by decide) (by decide) c d rest))]
    rw [altP_tail (mapP_error_intro (tagP_diverge (by decide) (by decide) (by decide) c d rest))]
    rw [altP_tail (mapP_error_intro (tagP_diverge (by decide) (by decide) (by decide) c d rest))]
    rw [altP_tail (mapP_error_intro (tagP_diverge (by decide) (by decide) (by decide) c d rest))]
    rw [altP_tail (mapP_error_intro (tagP_diverge (by decide) (by decide) (by decide) c d rest))]
    rw [altP_tail (mapP_error_intro (tagP_diverge (by decide) (by decide) (by decide) c d rest))]
    rw [altP_tail (mapP_error_intro (tagP_diverge (by decide) (by decide) (by decide) c d rest))]
    rw [altP_tail (mapP_error_intro (tagP_diverge (by decide) (by decide) (by decide) c d rest))]
    rw [show bytes "float64 " = bytes "float64" ++ [32] from by decide, List.append_assoc]
    exact altP_head_done (mapP_done_intro tagP_self)

theorem mapRes_error_intro {α β : Type} {p : Parser α} {f : α → Option β}
    {i pos : List Nat} {k : ErrKind}
    (hp : p i = .error k pos) : mapRes p f i = .error k pos := by
  simp only [mapRes, hp]

/-- C5 amended: for every header whose version minor token starts with a
non-digit (`format ascii <digits>.<non-digit>`, with the major value in
`i32` range), `parse_header` fails with nom's `Digit` error — the generic
error of the `digit` combinator, there being no dedicated `InvalidInteger`
error in the code — positioned at the offending character, i.e. at byte
offset `18 + |digits|` (19 for `1.x`). -/
theorem c5_malformed_version_digit_error :
    ∀ (ds : List Nat) (c : Nat) (rest : List Nat),
      ds ≠ [] → ds.all isDigitB = true → decVal ds ≤ 2147483647 → isDigitB c = false →
      header (bytes "ply\nformat ascii " ++ (ds ++ (46 :: c :: rest))) =
        .error .Digit (c :: rest) ∧
      (bytes "ply\nformat ascii " ++ (ds ++ (46 :: c :: rest))).length - (c :: rest).length
        = 18 + ds.length := by
  intro ds c rest hne hall hbound hc
  constructor
  · have hsplit : bytes "ply\nformat ascii " ++ (ds ++ (46 :: c :: rest)) =
        bytes "ply" ++ ([10] ++ (bytes "format" ++ ([32] ++ (bytes "ascii" ++
          ([32] ++ (ds ++ (46 :: c :: rest))))))) := by
      have h0 : bytes "ply\nformat ascii " =
          bytes "ply" ++ ([10] ++ (bytes "format" ++ ([32] ++ (bytes "ascii" ++ [32])))) := by
        decide
      rw [h0]
      simp only [List.append_assoc]
    rw [hsplit]
    unfold header
    refine pseq_error_intro2 tagP_self ?_
    refine pseq_error_intro2 (ws_span 10 (by decide)
      (by rw [show bytes "format" = 102 :: bytes "ormat" from by decide, List.cons_append]
          exact headNot_cons (by decide))) ?_
    refine pseq_error_intro1 ?_
    unfold format
    refine pseq_error_intro2 tagP_self ?_
    refine pseq_error_intro2 (ws_span 32 (by decide)
      (by rw [show bytes "ascii" = 97 :: bytes "scii" from by decide, List.cons_append]
          exact headNot_cons (by decide))) ?_
    refine pseq_error_intro2 (altP_head_done (mapP_done_intro tagP_self)) ?_
    refine pseq_error_intro2 (ws_span 32 (by decide)
      (@digits_headNot ds (46 :: c :: rest) hne hall)) ?_
    refine pseq_error_intro1 ?_
    unfold format_version
    have hdot : tagP (bytes ".") (46 :: c :: rest) = .done (c :: rest) (bytes ".") := by
      rw [show bytes "." = [46] from by decide]
      exact tagP_self
    refine pseq_error_intro2 (mapRes_done_intro (mapRes_done_intro
      (@digitP_span ds (46 :: c :: rest) hne hall (headNot_cons (by decide)))
      (digits_from_utf8 hall)) (parseI32_digits hne hall hbound)) ?_
    refine pseq_error_intro2 hdot ?_
    refine mapP_error_intro (mapRes_error_intro (mapRes_error_intro ?_))
    exact charClass1_error hc
  · have h17 : (bytes "ply\nformat ascii ").length = 17 := by decide
    simp only [List.length_append, List.length_cons, h17]
    omega

/-- C5 witness: the concrete malformed version line `format ascii 1.x`
inside a full header fails with the `Digit` error at offset 19. -/
theorem c5_malformed_version_digit_error_witness :
    header (bytes "ply\nformat ascii " ++ ([49] ++ (46 :: 120 ::
        bytes "\nelement vertex 1\nproperty float x\nend_header\n"))) =
      .error .Digit (120 :: bytes "\nelement vertex 1\nproperty float x\nend_header\n") ∧
    (bytes "ply\nformat ascii " ++ ([49] ++ (46 :: 120 ::
        bytes "\nelement vertex 1\nproperty float x\nend_header\n"))).length -
      (120 :: bytes "\nelement vertex 1\nproperty float x\nend_header\n").length
        = 18 + ([49] : List Nat).length :=
  c5_malformed_version_digit_error [49] 120
    (bytes "\nelement vertex 1\nproperty float x\nend_header\n")
    (by decide) (by decide) (by decide) (by decide)

/-! ## Inversion and consumption lemmas for the round-trip proof -/

theorem length_dropWhile_le (p : Nat → Bool) (l : List Nat) :
    (l.dropWhile p).length ≤ l.length := by
  induction l with
  | nil => simp
  | cons b t ih =>
    rw [List.dropWhile_cons]
    split
    · simp only [List.length_cons]
      omega
    · exact Nat.le_refl _

theorem tagP_done {t i r o : List Nat} (h : tagP t i = .done r o) :
    r = i.drop t.length ∧ o = t ∧ t.length ≤ i.length := by
  unfold tagP at h
  split at h
  · simp at h
  · split at h
    · injection h with h1 h2
      exact ⟨h1.symm, h2.symm, by omega⟩
    · simp at h

theorem charClass1_done_len {k : ErrKind} {p : Nat → Bool} {i r o : List Nat}
    (h : charClass1 k p i = .done r o) : r.length ≤ i.length := by
  obtain ⟨_, hr, _⟩ := charClass1_done h
  rw [hr]
  exact length_dropWhile_le p i

theorem mapRes_done_len {α β : Type} {p : Parser α} {f : α → Option β} {i r : List Nat} {b : β}
    (hlen : ∀ r1 (a : α), p i = .done r1 a → r1.length ≤ i.length)
    (h : mapRes p f i = .done r b) : r.length ≤ i.length := by
  obtain ⟨a, hp, _⟩ := mapRes_done h
  exact hlen r a hp

theorem data_type_done_len {i r : List Nat} {v : ValueKind}
    (h : data_type i = .done r v) : r.length ≤ i.length := by
  unfold data_type at h
  obtain ⟨p, hp, hd⟩ := altP_done h
  simp only [List.mem_cons, List.not_mem_nil, or_false] at hp
  rcases hp with h1|h1|h1|h1|h1|h1|h1|h1|h1|h1|h1|h1|h1|h1|h1|h1|h1|h1 <;>
    · rw [h1] at hd
      obtain ⟨_, ht, _⟩ := mapP_done hd
      obtain ⟨hr, _, hle⟩ := tagP_done ht
      rw [hr, List.length_drop]
      omega

theorem property_consumes {i r : List Nat} {p : Property}
    (h : property i = .done r p) : r.length < i.length := by
  unfold property at h
  obtain ⟨i1, _, ht, h⟩ := pseq_done h
  obtain ⟨hr1, _, hlen1⟩ := tagP_done ht
  obtain ⟨i2, _, hm1, h⟩ := pseq_done h
  obtain ⟨i3, knd, halt, h⟩ := pseq_done h
  obtain ⟨i4, _, hm2, h⟩ := pseq_done h
  obtain ⟨i5, nm, hid, h⟩ := pseq_done h
  obtain ⟨ws, hm3, _⟩ := mapP_done h
  have l1 : i1.length ≤ i.length - 8 := by
    rw [hr1, List.length_drop]
    have : (bytes "property").length = 8 := by decide
    omega
  have l2 : i2.length ≤ i1.length := charClass1_done_len hm1
  have l3 : i3.length ≤ i2.length := by
    obtain ⟨pb, hpb, hdone⟩ := altP_done halt
    simp only [List.mem_cons, List.not_mem_nil, or_false] at hpb
    rcases hpb with h1 | h1
    · rw [h1] at hdone
      obtain ⟨j1, _, ht2, hdone⟩ := pseq_done hdone
      obtain ⟨hj1, _, hlen2⟩ := tagP_done ht2
      obtain ⟨j2, _, hm4, hdone⟩ := pseq_done hdone
      obtain ⟨j3, _, hdt1, hdone⟩ := pseq_done hdone
      obtain ⟨j4, _, hm5, hdone⟩ := pseq_done hdone
      obtain ⟨_, hdt2, _⟩ := mapP_done hdone
      have := charClass1_done_len hm4
      have := data_type_done_len hdt1
      have := charClass1_done_len hm5
      have := data_type_done_len hdt2
      have : j1.length ≤ i2.length := by rw [hj1, List.length_drop]; omega
      omega
    · rw [h1] at hdone
      obtain ⟨_, hdt, _⟩ := mapP_done hdone
      exact data_type_done_len hdt
  have l4 : i4.length ≤ i3.length := charClass1_done_len hm2
  have l5 : i5.length ≤ i4.length := by
    refine mapRes_done_len (fun r1 a hp => ?_) hid
    exact charClass1_done_len hp
  have l6 : r.length ≤ i5.length := charClass1_done_len hm3
  have hi : 8 ≤ i.length := by
    have : (bytes "property").length = 8 := by decide
    omega
  omega

theorem comment_consumes {i r c : List Nat}
    (h : comment i = .done r c) : r.length < i.length := by
  unfold comment at h
  obtain ⟨i1, _, ht, h⟩ := pseq_done h
  obtain ⟨hr1, _, hlen1⟩ := tagP_done ht
  obtain ⟨i2, _, hm1, h⟩ := pseq_done h
  obtain ⟨i3, _, hnle, h⟩ := pseq_done h
  obtain ⟨ws, hm2, _⟩ := mapP_done h
  have l1 : i1.length ≤ i.length - 7 := by
    rw [hr1, List.length_drop]
    have : (bytes "comment").length = 7 := by decide
    omega
  have l2 : i2.length ≤ i1.length := charClass1_done_len hm1
  have l3 : i3.length ≤ i2.length := by
    obtain ⟨o, hn, _⟩ := mapRes_done hnle
    unfold not_line_ending at hn
    injection hn with h1 _
    rw [← h1]
    exact length_dropWhile_le _ i2
  have l4 : r.length ≤ i3.length := charClass1_done_len hm2
  have hi : 7 ≤ i.length := by
    have : (bytes "comment").length = 7 := by decide
    omega
  omega

theorem dropWhile_headNot (p : Nat → Bool) (l : List Nat) : headNot p (l.dropWhile p) := by
  induction l with
  | nil => trivial
  | cons b t ih =>
    rw [List.dropWhile_cons]
    split
    · exact ih
    · rename_i hb
      exact headNot_cons (by simpa using hb)

theorem takeWhile_head {p : Nat → Bool} {i : List Nat} {b : Nat} {t : List Nat}
    (h : i.takeWhile p = b :: t) : ∃ t', i = b :: t' := by
  cases i with
  | nil => simp at h
  | cons a l =>
    rw [List.takeWhile_cons] at h
    split at h
    · injection h with h1 _
      exact ⟨l, by rw [h1]⟩
    · simp at h

theorem parseSigned_digits_inv {lo hi : Int} {l : List Nat} {v : Int}
    (hall : l.all isDigitB = true) (h : parseSigned lo hi l = some v) :
    v = (decVal l : Int) ∧ lo ≤ v ∧ v ≤ hi := by
  cases l with
  | nil => simp [parseSigned, parseSign] at h
  | cons d t =>
    have hd : isDigitB d = true := by
      rw [List.all_eq_true] at hall
      exact hall d (List.mem_cons_self d t)
    unfold parseSigned at h
    rw [parseSign_digit hd] at h
    dsimp only at h
    simp only [List.isEmpty_cons, hall, Bool.not_true, Bool.or_false] at h
    rw [if_neg (by simp)] at h
    have hsv : signedVal false (d :: t) = ((decVal (d :: t) : Nat) : Int) := by
      simp [signedVal]
    rw [hsv] at h
    split at h
    · rename_i hcond
      injection h with h1
      exact ⟨h1.symm, by rw [← h1]; exact hcond.1, by rw [← h1]; exact hcond.2⟩
    · simp at h

theorem property_done_parts {i r : List Nat} {p : Property}
    (h : property i = .done r p) :
    p.name.all is_identifier = true ∧ (p.name = [] → r = []) := by
  unfold property at h
  obtain ⟨i1, _, ht, h⟩ := pseq_done h
  obtain ⟨i2, _, hm1, h⟩ := pseq_done h
  obtain ⟨i3, knd, halt, h⟩ := pseq_done h
  obtain ⟨i4, _, hm2, h⟩ := pseq_done h
  obtain ⟨i5, nm, hid, h⟩ := pseq_done h
  obtain ⟨ws, hm3, hp⟩ := mapP_done h
  obtain ⟨nm0, hid0, hutf⟩ := mapRes_done hid
  have hnm : nm = nm0 := from_utf8_some hutf
  unfold identifier at hid0
  obtain ⟨htake, hdrop, hemp⟩ := charClass1_done hid0
  have hpname : p.name = nm := by rw [hp]
  constructor
  · rw [hpname, hnm, htake]
    rw [List.all_eq_true]
    intro b hb
    exact List.mem_takeWhile_imp hb
  · intro hname
    have hnm0 : nm0 = [] := by rw [← hnm, ← hpname, hname]
    have hi4 : i4 = [] := hemp hnm0
    have hi5 : i5 = [] := by
      rw [hdrop, hi4]
      rfl
    rw [hi5] at hm3
    rw [show multispaceP [] = .done [] [] from rfl] at hm3
    injection hm3 with h1 _
    exact h1.symm

theorem many0_property_names : ∀ (fuel : Nat) {i r : List Nat} {xs : List Property},
    i.length < fuel → many0P property fuel i = .done r xs →
    ∀ x ∈ xs, x.name ≠ [] ∧ x.name.all is_identifier = true := by
  intro fuel
  induction fuel with
  | zero => intro i r xs hlen h; omega
  | succ fuel ih =>
    intro i r xs hlen h x hx
    rcases many0P_done h with ⟨k, pos, hp, hr, hxs⟩ | ⟨r1, x1, xs', hp, hm, hxs⟩
    · rw [hxs] at hx; simp at hx
    · rw [hxs] at hx
      have hcons := property_consumes hp
      rcases List.mem_cons.mp hx with h1 | h2
      · subst h1
        obtain ⟨hall, hemp⟩ := property_done_parts hp
        refine ⟨?_, hall⟩
        intro hname
        rw [hemp hname] at hm
        obtain ⟨f', rfl⟩ : ∃ f', fuel = f' + 1 := ⟨fuel - 1, by omega⟩
        have hpz : property [] = .incomplete (some 8) := by decide
        rw [many0P_incomplete1 hpz] at hm
        simp at hm
      · exact ih (by omega) hm x h2

theorem many1_property_names {fuel : Nat} {i r : List Nat} {xs : List Property}
    (hlen : i.length < fuel) (h : many1P property fuel i = .done r xs) :
    ∀ x ∈ xs, x.name ≠ [] ∧ x.name.all is_identifier = true := by
  obtain ⟨x, xs', r1, hp, hm, hxs⟩ := many1P_done h
  intro y hy
  rw [hxs] at hy
  have hcons := property_consumes hp
  rcases List.mem_cons.mp hy with h1 | h2
  · subst h1
    obtain ⟨hall, hemp⟩ := property_done_parts hp
    refine ⟨?_, hall⟩
    intro hname
    rw [hemp hname] at hm
    obtain ⟨f', rfl⟩ : ∃ f', fuel = f' + 1 := ⟨fuel - 1, by omega⟩
    have hpz : property [] = .incomplete (some 8) := by decide
    rw [many0P_incomplete1 hpz] at hm
    simp at hm
  · exact many0_property_names fuel (by omega) hm y h2

theorem element_done_good {i r : List Nat} {e : Element}
    (h : element i = .done r e) : goodElement e := by
  unfold element at h
  obtain ⟨i1, _, ht, h⟩ := pseq_done h
  obtain ⟨i2, _, hm1, h⟩ := pseq_done h
  obtain ⟨i3, nm, hid, h⟩ := pseq_done h
  obtain ⟨i4, _, hm2, h⟩ := pseq_done h
  obtain ⟨i5, cnt, hcnt, h⟩ := pseq_done h
  obtain ⟨i6, _, hm3, h⟩ := pseq_done h
  obtain ⟨props, hprops, he⟩ := mapP_done h
  obtain ⟨nm0, hid0, hutf⟩ := mapRes_done hid
  have hnm : nm = nm0 := from_utf8_some hutf
  unfold identifier at hid0
  obtain ⟨htake, hdrop, hemp⟩ := charClass1_done hid0
  obtain ⟨d1, hdig, hparse⟩ := mapRes_done hcnt
  obtain ⟨d0, hdig0, hutf2⟩ := mapRes_done hdig
  have hd1 : d1 = d0 := from_utf8_some hutf2
  unfold digitP at hdig0
  obtain ⟨hdtake, _, _⟩ := charClass1_done hdig0
  have hdall : d1.all isDigitB = true := by
    rw [hd1, hdtake, List.all_eq_true]
    intro b hb
    exact List.mem_takeWhile_imp hb
  have hbounds := parseSigned_digits_inv hdall hparse
  have hnm_ne : nm ≠ [] := by
    intro hname
    have hi2 : i2 = [] := hemp (by rw [← hnm]; exact hname)
    have hi3 : i3 = [] := by
      rw [hdrop, hi2]
      rfl
    rw [hi3] at hm2
    rw [show multispaceP [] = .done [] [] from rfl] at hm2
    injection hm2 with h1 _
    rw [← h1] at hcnt
    rw [show mapRes (mapRes digitP from_utf8) parseI64 [] = .error .MapRes [] from by decide]
      at hcnt
    simp at hcnt
  have hprops2 : many1P property (i6.length + 1) i6 = .done r props := hprops
  refine ⟨?_, ?_, ?_, ?_, ?_⟩
  · rw [he]; exact hnm_ne
  · rw [he]
    show nm.all is_identifier = true
    rw [hnm, htake, List.all_eq_true]
    intro b hb
    exact List.mem_takeWhile_imp hb
  · rw [he]
    show goodCountInt cnt
    refine ⟨?_, ?_⟩
    · rw [hbounds.1]
      exact Int.natCast_nonneg _
    · exact hbounds.2.2
  · rw [he]
    show props ≠ []
    exact many1P_ne_nil hprops2
  · rw [he]
    intro p hp
    obtain ⟨h1, h2⟩ := many1_property_names (by omega) hprops2 p hp
    exact ⟨h1, h2⟩

theorem from_utf8_some_valid {l m : List Nat} (h : from_utf8 l = some m) :
    utf8Valid l = true := by
  unfold from_utf8 at h
  split at h
  · assumption
  · simp at h

theorem comment_done_parts {i r c : List Nat} (h : comment i = .done r c) :
    utf8Valid c = true ∧ noLineEnd c ∧ (c = [] → r = []) ∧ (c ≠ [] → headNotWS c) := by
  unfold comment at h
  obtain ⟨i1, _, ht, h⟩ := pseq_done h
  obtain ⟨i2, _, hm1, h⟩ := pseq_done h
  obtain ⟨i3, c0, hnle, h⟩ := pseq_done h
  obtain ⟨ws, hm2, hc⟩ := mapP_done h
  obtain ⟨c1, hn, hutf⟩ := mapRes_done hnle
  have hc0 : c0 = c1 := from_utf8_some hutf
  have hvalid : utf8Valid c1 = true := from_utf8_some_valid hutf
  unfold not_line_ending at hn
  injection hn with h1 h2
  have hi2 : headNot isWSB i2 := by
    unfold multispaceP at hm1
    obtain ⟨_, hdr, _⟩ := charClass1_done hm1
    rw [hdr]
    exact dropWhile_headNot isWSB i1
  have hcc : c = i2.takeWhile (fun b => !(b == 13 || b == 10)) := by
    rw [hc, hc0, ← h2]
  refine ⟨by rw [hc, hc0]; exact hvalid, ?_, ?_, ?_⟩
  · intro b hb
    rw [hcc] at hb
    have := List.mem_takeWhile_imp hb
    simp only [Bool.not_eq_eq_eq_not, Bool.not_false, Bool.or_eq_false_iff,
      beq_eq_false_iff_ne] at this
    simpa using this
  · intro hce
    have hi2nil : i2 = [] := by
      cases hi2c : i2 with
      | nil => rfl
      | cons b t =>
        rw [hi2c] at hcc hi2
        rw [List.takeWhile_cons] at hcc
        split at hcc
        · rw [hce] at hcc; simp at hcc
        · rename_i hq
          simp at hq
          unfold headNot at hi2
          unfold isWSB at hi2
          by_cases h13 : b = 13
          · rw [h13] at hi2; simp at hi2
          · rw [hq h13] at hi2; simp at hi2
    have hi3nil : i3 = [] := by rw [← h1, hi2nil]; rfl
    rw [hi3nil] at hm2
    rw [show multispaceP [] = .done [] [] from rfl] at hm2
    injection hm2 with hr _
    exact hr.symm
  · intro hne
    obtain ⟨b, t, hbt⟩ := List.exists_cons_of_ne_nil hne
    rw [hbt] at hcc ⊢
    obtain ⟨t', ht'⟩ := takeWhile_head hcc.symm
    rw [ht'] at hi2
    exact hi2

theorem many0_comment_good : ∀ (fuel : Nat) {i r : List Nat} {cs : List (List Nat)},
    i.length < fuel → many0P comment fuel i = .done r cs →
    ∀ c ∈ cs, goodComment c := by
  intro fuel
  induction fuel with
  | zero => intro i r cs hlen h; omega
  | succ fuel ih =>
    intro i r cs hlen h c hc
    rcases many0P_done h with ⟨k, pos, hp, hr, hcs⟩ | ⟨r1, c1, cs', hp, hm, hcs⟩
    · rw [hcs] at hc; simp at hc
    · rw [hcs] at hc
      have hcons := comment_consumes hp
      rcases List.mem_cons.mp hc with h1 | h2
      · subst h1
        obtain ⟨hu, hnl, hemp, hhd⟩ := comment_done_parts hp
        by_cases hce : c = []
        · exfalso
          rw [hemp hce] at hm
          obtain ⟨f', rfl⟩ : ∃ f', fuel = f' + 1 := ⟨fuel - 1, by omega⟩
          have hcz : comment [] = .incomplete (some 7) := by decide
          rw [many0P_incomplete1 hcz] at hm
          simp at hm
        · exact ⟨hu, hnl, hhd hce⟩
      · exact ih (by omega) hm c h2

theorem format_done_good {i r : List Nat} {f : Format} (h : format i = .done r f) :
    goodVersionInt f.version.major ∧ goodVersionInt f.version.minor := by
  unfold format at h
  obtain ⟨i1, _, ht, h⟩ := pseq_done h
  obtain ⟨i2, _, hm1, h⟩ := pseq_done h
  obtain ⟨i3, knd, halt, h⟩ := pseq_done h
  obtain ⟨i4, _, hm2, h⟩ := pseq_done h
  obtain ⟨i5, ver, hver, h⟩ := pseq_done h
  obtain ⟨ws, hm3, hf⟩ := mapP_done h
  unfold format_version at hver
  obtain ⟨j1, maj, hmaj, hver⟩ := pseq_done hver
  obtain ⟨j2, _, hdot, hver⟩ := pseq_done hver
  obtain ⟨mn, hmn, hverval⟩ := mapP_done hver
  obtain ⟨d1, hd1, hp1⟩ := mapRes_done hmaj
  obtain ⟨d0, hd0, hu1⟩ := mapRes_done hd1
  have hd10 : d1 = d0 := from_utf8_some hu1
  unfold digitP at hd0
  obtain ⟨htk1, _, _⟩ := charClass1_done hd0
  have hall1 : d1.all isDigitB = true := by
    rw [hd10, htk1, List.all_eq_true]
    intro b hb
    exact List.mem_takeWhile_imp hb
  have hb1 := parseSigned_digits_inv hall1 hp1
  obtain ⟨e1, he1, hp2⟩ := mapRes_done hmn
  obtain ⟨e0, he0, hu2⟩ := mapRes_done he1
  have he10 : e1 = e0 := from_utf8_some hu2
  unfold digitP at he0
  obtain ⟨htk2, _, _⟩ := charClass1_done he0
  have hall2 : e1.all isDigitB = true := by
    rw [he10, htk2, List.all_eq_true]
    intro b hb
    exact List.mem_takeWhile_imp hb
  have hb2 := parseSigned_digits_inv hall2 hp2
  have hfv : f.version = ver := by rw [hf]
  have hverm : ver = { major := maj, minor := mn } := by rw [hverval]
  rw [hfv, hverm]
  constructor
  · exact ⟨by rw [hb1.1]; exact Int.natCast_nonneg _, hb1.2.2⟩
  · exact ⟨by rw [hb2.1]; exact Int.natCast_nonneg _, hb2.2.2⟩

theorem header_done_WF {i r : List Nat} {h : Header} (hd : header i = .done r h) :
    WFHeader h := by
  obtain ⟨i1, i2, i3, i4, i5, i6, t1, ws1, fmt, cs, es, t2, ws2,
    h1, h2, h3, h4, h5, h6, h7, hh⟩ := header_done_parts hd
  refine ⟨?_, ?_, ?_, ?_, ?_⟩
  · rw [hh]
    intro c hc
    exact many0_comment_good (i3.length + 1) (by omega) h4 c hc
  · rw [hh]
    exact (format_done_good h3).1
  · rw [hh]
    exact (format_done_good h3).2
  · rw [hh]
    exact many1P_ne_nil h5
  · rw [hh]
    intro e he
    obtain ⟨i', r', hel⟩ := many1P_mem h5 e he
    exact element_done_good hel

theorem data_type_complete (t : ValueKind) (c d : Nat) (rest : List Nat) :
    data_type (typeBytes t ++ (32 :: c :: d :: rest)) = .done (32 :: c :: d :: rest) t := by
  cases t
  · show data_type (bytes "char" ++ (32 :: c :: d :: rest)) = .done (32 :: c :: d :: rest) ValueKind.Int8
    have hre : bytes "char" ++ (32 :: c :: d :: rest) = bytes "char " ++ (c :: d :: rest) := by
      rw [show bytes "char " = bytes "char" ++ [32] from by decide, List.append_assoc]
      rfl
    rw [hre]
    unfold data_type
    rw [show bytes "char " = bytes "char" ++ [32] from by decide, List.append_assoc]
    exact altP_head_done (mapP_done_intro tagP_self)
  · show data_type (bytes "uchar" ++ (32 :: c :: d :: rest)) = .done (32 :: c :: d :: rest) ValueKind.UInt8
    have hre : bytes "uchar" ++ (32 :: c :: d :: rest) = bytes "uchar " ++ (c :: d :: rest) := by
      rw [show bytes "uchar " = bytes "uchar" ++ [32] from by decide, List.append_assoc]
      rfl
    rw [hre]
    unfold data_type
    rw [altP_tail (mapP_error_intro (tagP_diverge (by decide) (by decide) (by decide) c d rest))]
    rw [show bytes "uchar " = bytes "uchar" ++ [32] from by decide, List.append_assoc]
    exact altP_head_done (mapP_done_intro tagP_self)
  · show data_type (bytes "short" ++ (32 :: c :: d :: rest)) = .done (32 :: c :: d :: rest) ValueKind.Int16
    have hre : bytes "short" ++ (32 :: c :: d :: rest) = bytes "short " ++ (c :: d :: rest) := by
      rw [show bytes "short " = bytes "short" ++ [32] from by decide, List.append_assoc]
      rfl
    rw [hre]
    unfold data_type
    rw [altP_tail (mapP_error_intro (tagP_diverge (by decide) (by decide) (by decide) c d rest))]
    rw [altP_tail (mapP_error_intro (tagP_diverge (by decide) (by decide) (by decide) c d rest))]
    rw [show bytes "short " = bytes "short" ++ [32] from by decide, List.append_assoc]
    exact altP_head_done (mapP_done_intro tagP_self)
  · show data_type (bytes "ushort" ++ (32 :: c :: d :: rest)) = .done (32 :: c :: d :: rest) ValueKind.UInt16
    have hre : bytes "ushort" ++ (32 :: c :: d :: rest) = bytes "ushort " ++ (c :: d :: rest) := by
      rw [show bytes "ushort " = bytes "ushort" ++ [32] from by decide, List.append_assoc]
      rfl
    rw [hre]
    unfold data_type
    rw [altP_tail (mapP_error_intro (tagP_diverge (by decide) (by decide) (by decide) c d rest))]
    rw [altP_tail (mapP_error_intro (tagP_diverge (by decide) (by decide) (by decide) c d rest))]
    rw [altP_tail (mapP_error_intro (tagP_diverge (by decide) (by decide) (by decide) c d rest))]
    rw [show bytes "ushort " = bytes "ushort" ++ [32] from by decide, List.append_assoc]
    exact altP_head_done (mapP_done_intro tagP_self)
  · show data_type (bytes "int" ++ (32 :: c :: d :: rest)) = .done (32 :: c :: d :: rest) ValueKind.Int32
    have hre : bytes "int" ++ (32 :: c :: d :: rest) = bytes "int " ++ (c :: d :: rest) := by
      rw [show bytes "int " = bytes "int" ++ [32] from by decide, List.append_assoc]
      rfl
    rw [hre]
    unfold data_type
    rw [altP_tail (mapP_error_intro (tagP_diverge (by decide) (by decide) (by decide) c d rest))]
    rw [altP_tail (mapP_error_intro (tagP_diverge (by decide) (by decide) (by decide) c d rest))]
    rw [altP_tail (mapP_error_intro (tagP_diverge (by decide) (by decide) (by decide) c d rest))]
    rw [altP_tail (mapP_error_intro (tagP_diverge (by decide) (by decide) (by decide) c d rest))]
    rw [altP_tail (mapP_error_intro (tagP_diverge (by decide) (by decide) (by decide) c d rest))]
    rw [altP_tail (mapP_error_intro (tagP_diverge (by decide) (by decide) (by decide) c d rest))]
    rw [altP_tail (mapP_error_intro (tagP_diverge (by decide) (by decide) (by decide) c d rest))]
    rw [altP_tail (mapP_error_intro (tagP_diverge (by decide) (by decide) (by decide) c d rest))]
    rw [show bytes "int " = bytes "int" ++ [32] from by decide, List.append_assoc]
    exact altP_head_done (mapP_done_intro tagP_self)
  · show data_type (bytes "uint" ++ (32 :: c :: d :: rest)) = .done (32 :: c :: d :: rest) ValueKind.UInt32
    have hre : bytes "uint" ++ (32 :: c :: d :: rest) = bytes "uint " ++ (c :: d :: rest) := by
      rw [show bytes "uint " = bytes "uint" ++ [32] from by decide, List.append_assoc]
      rfl
    rw [hre]
    unfold data_type
    rw [altP_tail (mapP_error_intro (tagP_diverge (by decide) (by decide) (by decide) c d rest))]
    rw [altP_tail (mapP_error_intro (tagP_diverge (by decide) (by decide) (by decide) c d rest))]
    rw [altP_tail (mapP_error_intro (tagP_diverge (by decide) (by decide) (by decide) c d rest))]
    rw [altP_tail (mapP_error_intro (tagP_diverge (by decide) (by decide) (by decide) c d rest))]
    rw [altP_tail (mapP_error_intro (tagP_diverge (by decide) (by decide) (by decide) c d rest))]
    rw [altP_tail (mapP_error_intro (tagP_diverge (by decide) (by decide) (by decide) c d rest))]
    rw [altP_tail (mapP_error_intro (tagP_diverge (by decide) (by decide) (by decide) c d rest))]
    rw [altP_tail (mapP_error_intro (tagP_diverge (by decide) (by decide) (by decide) c d rest))]
    rw [altP_tail (mapP_error_intro (tagP_diverge (by decide) (by decide) (by decide) c d rest))]
    rw [altP_tail (mapP_error_intro (tagP_diverge (by decide) (by decide) (by decide) c d rest))]
    rw [altP_tail (mapP_error_intro (tagP_diverge (by decide) (by decide) (by decide) c d rest))]
    rw [altP_tail (mapP_error_intro (tagP_diverge (by decide) (by decide) (by decide) c d rest))]
    rw [altP_tail (mapP_error_intro (tagP_diverge (by decide) (by decide) (by decide) c d rest))]
    rw [show bytes "uint " = bytes "uint" ++ [32] from by decide, List.append_assoc]
    exact altP_head_done (mapP_done_intro tagP_self)
  · show data_type (bytes "int64" ++ (32 :: c :: d :: rest)) = .done (32 :: c :: d :: rest) ValueKind.Int64
    have hre : bytes "int64" ++ (32 :: c :: d :: rest) = bytes "int64 " ++ (c :: d :: rest) := by
      rw [show bytes "int64 " = bytes "int64" ++ [32] from by decide, List.append_assoc]
      rfl
    rw [hre]
    unfold data_type
    rw [altP_tail (mapP_error_intro (tagP_diverge (by decide) (by decide) (by decide) c d rest))]
    rw [altP_tail (mapP_error_intro (tagP_diverge (by decide) (by decide) (by decide) c d rest))]
    rw [altP_tail (mapP_error_intro (tagP_diverge (by decide) (by decide) (by decide) c d rest))]
    rw [altP_tail (mapP_error_intro (tagP_diverge (by decide) (by decide) (by decide) c d rest))]
    rw [show bytes "int64 " = bytes "int64" ++ [32] from by decide, List.append_assoc]
    exact altP_head_done (mapP_done_intro tagP_self)
  · show data_type (bytes "uint64" ++ (32 :: c :: d :: rest)) = .done (32 :: c :: d :: rest) ValueKind.UInt64
    have hre : bytes "uint64" ++ (32 :: c :: d :: rest) = bytes "uint64 " ++ (c :: d :: rest) := by
      rw [show bytes "uint64 " = bytes "uint64" ++ [32] from by decide, List.append_assoc]
      rfl
    rw [hre]
    unfold data_type
    rw [altP_tail (mapP_error_intro (tagP_diverge (by decide) (by decide) (by decide) c d rest))]
    rw [altP_tail (mapP_error_intro (tagP_diverge (by decide) (by decide) (by decide) c d rest))]
    rw [altP_tail (mapP_error_intro (tagP_diverge (by decide) (by decide) (by decide) c d rest))]
    rw [altP_tail (mapP_error_intro (tagP_diverge (by decide) (by decide) (by decide) c d rest))]
    rw [altP_tail (mapP_error_intro (tagP_diverge (by decide) (by decide) (by decide) c d rest))]
    rw [altP_tail (mapP_error_intro (tagP_diverge (by decide) (by decide) (by decide) c d rest))]
    rw [altP_tail (mapP_error_intro (tagP_diverge (by decide) (by decide) (by decide) c d rest))]
    rw [altP_tail (mapP_error_intro (tagP_diverge (by decide) (by decide) (by decide) c d rest))]
    rw [altP_tail (mapP_error_intro (tagP_diverge (by decide) (by decide) (by decide) c d rest))]
    rw [altP_tail (mapP_error_intro (tagP_diverge (by decide) (by decide) (by decide) c d rest))]
    rw [altP_tail (mapP_error_intro (tagP_diverge (by decide) (by decide) (by decide) c d rest))]
    rw [altP_tail (mapP_error_intro (tagP_diverge (by decide) (by decide) (by decide) c d rest))]
    rw [show bytes "uint64 " = bytes "uint64" ++ [32] from by decide, List.append_assoc]
    exact altP_head_done (mapP_done_intro tagP_self)
  · show data_type (bytes "float" ++ (32 :: c :: d :: rest)) = .done (32 :: c :: d :: rest) ValueKind.Float32
    have hre : bytes "float" ++ (32 :: c :: d :: rest) = bytes "float " ++ (c :: d :: rest) := by
      rw [show bytes "float " = bytes "float" ++ [32] from by decide, List.append_assoc]
      rfl
    rw [hre]
    unfold data_type
    rw [altP_tail (mapP_error_intro (tagP_diverge (by decide) (by decide) (by decide) c d rest))]
    rw [altP_tail (mapP_error_intro (tagP_diverge (by decide) (by decide) (by decide) c d rest))]
    rw [altP_tail (mapP_error_intro (tagP_diverge (by decide) (by decide) (by decide) c d rest))]
    rw [altP_tail (mapP_error_intro (tagP_diverge (by decide) (by decide) (by decide) c d rest))]
    rw [altP_tail (mapP_error_intro (tagP_diverge (by decide) (by decide) (by decide) c d rest))]
    rw [altP_tail (mapP_error_intro (tagP_diverge (by decide) (by decide) (by decide) c d rest))]
    rw [altP_tail (mapP_error_intro (tagP_diverge (by decide) (by decide) (by decide) c d rest))]
    rw [altP_tail (mapP_error_intro (tagP_diverge (by decide) (by decide) (by decide) c d rest))]
    rw [altP_tail (mapP_error_intro (tagP_diverge (by decide) (by decide) (by decide) c d rest))]
    rw [altP_tail (mapP_error_intro (tagP_diverge (by decide) (by decide) (by decide) c d rest))]
    rw [altP_tail (mapP_error_intro (tagP_diverge (by decide) (by decide) (by decide) c d rest))]
    rw [altP_tail (mapP_error_intro (tagP_diverge (by decide) (by decide) (by decide) c d rest))]
    rw [altP_tail (mapP_error_intro (tagP_diverge (by decide) (by decide) (by decide) c d rest))]
    rw [altP_tail (mapP_error_intro (tagP_diverge (by decide) (by decide) (by decide) c d rest))]
    rw [altP_tail (mapP_error_intro (tagP_diverge (by decide) (by decide) (by decide) c d rest))]
    rw [altP_tail (mapP_error_intro (tagP_diverge (by decide) (by decide) (by decide) c d rest))]
    rw [show bytes "float " = bytes "float" ++ [32] from by decide, List.append_assoc]
    exact altP_head_done (mapP_done_intro tagP_self)
  · show data_type (bytes "double" ++ (32 :: c :: d :: rest)) = .done (32 :: c :: d :: rest) ValueKind.Float64
    have hre : bytes "double" ++ (32 :: c :: d :: rest) = bytes "double " ++ (c :: d :: rest) := by
      rw [show bytes "double " = bytes "double" ++ [32] from by decide, List.append_assoc]
      rfl
    rw [hre]
    unfold data_type
    rw [altP_tail (mapP_error_intro (tagP_diverge (by decide) (by decide) (by decide) c d rest))]
    rw [altP_tail (mapP_error_intro (tagP_diverge (by decide) (by decide) (by decide) c d rest))]
    rw [altP_tail (mapP_error_intro (tagP_diverge (by decide) (by decide) (by decide) c d rest))]
    rw [altP_tail (mapP_error_intro (tagP_diverge (by decide) (by decide) (by decide) c d rest))]
    rw [altP_tail (mapP_error_intro (tagP_diverge (by decide) (by decide) (by decide) c d rest))]
    rw [altP_tail (mapP_error_intro (tagP_diverge (by decide) (by decide) (by decide) c d rest))]
    rw [altP_tail (mapP_error_intro (tagP_diverge (by decide) (by decide) (by decide) c d rest))]
    rw [altP_tail (mapP_error_intro (tagP_diverge (by decide) (by decide) (by decide) c d rest))]
    rw [altP_tail (mapP_error_intro (tagP_diverge (by decide) (by decide) (by decide) c d rest))]
    rw [altP_tail (mapP_error_intro (tagP_diverge (by decide) (by decide) (by decide) c d rest))]
    rw [altP_tail (mapP_error_intro (tagP_diverge (by decide) (by decide) (by decide) c d rest))]
    rw [altP_tail (mapP_error_intro (tagP_diverge (by decide) (by decide) (by decide) c d rest))]
    rw [altP_tail (mapP_error_intro (tagP_diverge (by decide) (by decide) (by decide) c d rest))]
    rw [altP_tail (mapP_error_intro (tagP_diverge (by decide) (by decide) (by decide) c d rest))]
    rw [altP_tail (mapP_error_intro (tagP_diverge (by decide) (by decide) (by decide) c d rest))]
    rw [altP_tail (mapP_error_intro (tagP_diverge (by decide) (by decide) (by decide) c d rest))]
    rw [altP_tail (mapP_error_intro (tagP_diverge (by decide) (by decide) (by decide) c d rest))]
    rw [show bytes "double " = bytes "double" ++ [32] from by decide, List.append_assoc]
    exact altP_head_done (mapP_done_intro tagP_self)

theorem data_type_complete2 (t : ValueKind) {suf : List Nat} (h : 2 ≤ suf.length) :
    data_type (typeBytes t ++ (32 :: suf)) = .done (32 :: suf) t := by
  rcases suf with _ | ⟨c, _ | ⟨d, r⟩⟩
  · simp at h
  · simp at h
  · exact data_type_complete t c d r

theorem list_tag_fails2 (t : ValueKind) {suf : List Nat} (h : 2 ≤ suf.length) :
    tagP (bytes "list") (typeBytes t ++ suf) = .error .Tag (typeBytes t ++ suf) := by
  rcases suf with _ | ⟨c, _ | ⟨d, r⟩⟩
  · simp at h
  · simp at h
  · cases t <;> exact tagP_diverge (by decide) (by decide) (by decide) c d r

theorem ident_span {l r : List Nat} (hne : l ≠ []) (hall : l.all is_identifier = true)
    (hr : headNot is_identifier r) : identifier (l ++ r) = .done r l := by
  unfold identifier
  exact charClass1_span hne (List.all_eq_true.mp hall) hr

theorem ident_from_utf8 {l : List Nat} (hall : l.all is_identifier = true) :
    from_utf8 l = some l := by
  rw [List.all_eq_true] at hall
  exact from_utf8_ascii fun b hb => is_identifier_le b (hall b hb)

theorem ident_headNot {l : List Nat} (r : List Nat) (hne : l ≠ [])
    (hall : l.all is_identifier = true) : headNot isWSB (l ++ r) := by
  obtain ⟨b, t, rfl⟩ := List.exists_cons_of_ne_nil hne
  rw [List.all_eq_true] at hall
  exact headNot_cons (is_identifier_not_ws (hall b (List.mem_cons_self b t)))

theorem typeBytes_headNot (t : ValueKind) (r : List Nat) : headNot isWSB (typeBytes t ++ r) := by
  cases t
  · rw [show typeBytes ValueKind.Int8 = 99 :: bytes "har" from by decide, List.cons_append]
    exact headNot_cons (by decide)
  · rw [show typeBytes ValueKind.UInt8 = 117 :: bytes "char" from by decide, List.cons_append]
    exact headNot_cons (by decide)
  · rw [show typeBytes ValueKind.Int16 = 115 :: bytes "hort" from by decide, List.cons_append]
    exact headNot_cons (by decide)
  · rw [show typeBytes ValueKind.UInt16 = 117 :: bytes "short" from by decide, List.cons_append]
    exact headNot_cons (by decide)
  · rw [show typeBytes ValueKind.Int32 = 105 :: bytes "nt" from by decide, List.cons_append]
    exact headNot_cons (by decide)
  · rw [show typeBytes ValueKind.UInt32 = 117 :: bytes "int" from by decide, List.cons_append]
    exact headNot_cons (by decide)
  · rw [show typeBytes ValueKind.Int64 = 105 :: bytes "nt64" from by decide, List.cons_append]
    exact headNot_cons (by decide)
  · rw [show typeBytes ValueKind.UInt64 = 117 :: bytes "int64" from by decide, List.cons_append]
    exact headNot_cons (by decide)
  · rw [show typeBytes ValueKind.Float32 = 102 :: bytes "loat" from by decide, List.cons_append]
    exact headNot_cons (by decide)
  · rw [show typeBytes ValueKind.Float64 = 100 :: bytes "ouble" from by decide, List.cons_append]
    exact headNot_cons (by decide)

theorem property_complete (p : Property) (hp : goodProperty p) {rest : List Nat}
    (hrest : headNot isWSB rest) :
    property (serializeProperty p ++ rest) = .done rest p := by
  obtain ⟨hne, hall⟩ := hp
  obtain ⟨name, kind⟩ := p
  simp only at hne hall
  have hsuflen : 2 ≤ (name ++ (10 :: rest)).length := by
    obtain ⟨n0, nt, rfl⟩ := List.exists_cons_of_ne_nil hne
    simp only [List.length_append, List.length_cons]
    omega
  cases kind with
  | Scalar t =>
    have hre : serializeProperty { name := name, kind := PropertyKind.Scalar t } ++ rest =
        bytes "property" ++ (32 :: (typeBytes t ++ (32 :: (name ++ (10 :: rest))))) := by
      show (bytes "property " ++ typeBytes t ++ [32] ++ name ++ [10]) ++ rest = _
      rw [show bytes "property " = bytes "property" ++ [32] from by decide]
      simp [List.append_assoc]
    rw [hre]
    unfold property
    refine pseq_done_intro tagP_self ?_
    refine pseq_done_intro (ws_span 32 (by decide) (typeBytes_headNot t _)) ?_
    apply pseq_done_intro
    · rw [altP_tail (pseq_error_intro1 (list_tag_fails2 t
        (by simp only [List.length_cons]; omega)))]
      exact altP_head_done (mapP_done_intro (data_type_complete2 t hsuflen))
    · refine pseq_done_intro (ws_span 32 (by decide) (ident_headNot (10 :: rest) hne hall)) ?_
      refine pseq_done_intro (mapRes_done_intro
        (ident_span hne hall (headNot_cons (by decide))) (ident_from_utf8 hall)) ?_
      exact mapP_done_intro (ws_span 10 (by decide) hrest)
  | List ct et =>
    have hre : serializeProperty { name := name, kind := PropertyKind.List ct et } ++ rest =
        bytes "property" ++ (32 :: (bytes "list" ++ (32 :: (typeBytes ct ++
          (32 :: (typeBytes et ++ (32 :: (name ++ (10 :: rest))))))))) := by
      show (bytes "property " ++ (bytes "list " ++ typeBytes ct ++ [32] ++ typeBytes et) ++
        [32] ++ name ++ [10]) ++ rest = _
      rw [show bytes "property " = bytes "property" ++ [32] from by decide,
          show bytes "list " = bytes "list" ++ [32] from by decide]
      simp [List.append_assoc]
    rw [hre]
    unfold property
    refine pseq_done_intro tagP_self ?_
    refine pseq_done_intro (ws_span 32 (by decide)
      (by rw [show bytes "list" = 108 :: bytes "ist" from by decide, List.cons_append]
          exact headNot_cons (by decide))) ?_
    apply pseq_done_intro
    · apply altP_head_done
      apply pseq_done_intro tagP_self
      apply pseq_done_intro (ws_span 32 (by decide) (typeBytes_headNot ct _))
      apply pseq_done_intro (data_type_complete2 ct (by
        simp only [List.length_append, List.length_cons]
        have h3 : 3 ≤ (typeBytes et).length := by cases et <;> decide
        omega))
      apply pseq_done_intro (ws_span 32 (by decide) (typeBytes_headNot et _))
      exact mapP_done_intro (data_type_complete2 et hsuflen)
    · refine pseq_done_intro (ws_span 32 (by decide) (ident_headNot (10 :: rest) hne hall)) ?_
      refine pseq_done_intro (mapRes_done_intro
        (ident_span hne hall (headNot_cons (by decide))) (ident_from_utf8 hall)) ?_
      exact mapP_done_intro (ws_span 10 (by decide) hrest)

theorem headNot_append_left {p : Nat → Bool} {l : List Nat} (r : List Nat)
    (hne : l ≠ []) (h : headNot p l) : headNot p (l ++ r) := by
  obtain ⟨b, t, rfl⟩ := List.exists_cons_of_ne_nil hne
  exact h

theorem serializeProperty_headNot (p : Property) (r : List Nat) :
    headNot isWSB (serializeProperty p ++ r) := by
  unfold serializeProperty
  rw [show bytes "property " = 112 :: bytes "roperty " from by decide]
  simp only [List.cons_append]
  exact headNot_cons (by decide)

theorem serializeProps_flatten_len (ps : List Property) :
    ps.length ≤ ((ps.map serializeProperty).flatten).length := by
  induction ps with
  | nil => simp
  | cons p ps ih =>
    simp only [List.map_cons, List.flatten_cons, List.length_append, List.length_cons]
    have h1 : 1 ≤ (serializeProperty p).length := by
      unfold serializeProperty
      rw [show bytes "property " = 112 :: bytes "roperty " from by decide]
      simp only [List.cons_append, List.length_cons]
      omega
    omega

theorem flattenProps_headNot (ps : List Property) {rest : List Nat}
    (hrest : headNot isWSB rest) :
    headNot isWSB ((ps.map serializeProperty).flatten ++ rest) := by
  cases ps with
  | nil => simpa using hrest
  | cons p ps =>
    simp only [List.map_cons, List.flatten_cons, List.append_assoc]
    exact serializeProperty_headNot p _

theorem many0_props_complete :
    ∀ (ps : List Property) (fuel : Nat) {rest : List Nat},
      (∀ p ∈ ps, goodProperty p) → ps.length < fuel →
      headNot isWSB rest →
      tagP (bytes "property") rest = .error .Tag rest →
      many0P property fuel ((ps.map serializeProperty).flatten ++ rest) = .done rest ps := by
  intro ps
  induction ps with
  | nil =>
    intro fuel rest _ hf _ hstop
    obtain ⟨f', rfl⟩ : ∃ f', fuel = f' + 1 := ⟨fuel - 1, by omega⟩
    simp only [List.map_nil, List.flatten_nil, List.nil_append]
    have hpe : property rest = .error .Tag rest := by
      unfold property
      exact pseq_error_intro1 hstop
    exact many0P_stop hpe
  | cons p ps ih =>
    intro fuel rest hgood hf hrest hstop
    obtain ⟨f', rfl⟩ : ∃ f', fuel = f' + 1 := ⟨fuel - 1, by omega⟩
    simp only [List.map_cons, List.flatten_cons, List.append_assoc]
    exact many0P_step
      (property_complete p (hgood p (List.mem_cons_self p ps)) (flattenProps_headNot ps hrest))
      (ih f' (fun q hq => hgood q (List.mem_cons_of_mem p hq))
        (by simp only [List.length_cons] at hf; omega) hrest hstop)

theorem many1_props_complete (ps : List Property) (fuel : Nat) {rest : List Nat}
    (hgood : ∀ p ∈ ps, goodProperty p) (hne : ps ≠ []) (hf : ps.length ≤ fuel)
    (hrest : headNot isWSB rest)
    (hstop : tagP (bytes "property") rest = .error .Tag rest) :
    many1P property fuel ((ps.map serializeProperty).flatten ++ rest) = .done rest ps := by
  obtain ⟨p, ps', rfl⟩ := List.exists_cons_of_ne_nil hne
  simp only [List.map_cons, List.flatten_cons, List.append_assoc]
  exact many1P_intro
    (property_complete p (hgood p (List.mem_cons_self p ps')) (flattenProps_headNot ps' hrest))
    (many0_props_complete ps' fuel (fun q hq => hgood q (List.mem_cons_of_mem p hq))
      (by simp only [List.length_cons] at hf; omega) hrest hstop)

theorem element_complete (e : Element) (he : goodElement e) {rest : List Nat}
    (hrest : headNot isWSB rest)
    (hstop : tagP (bytes "property") rest = .error .Tag rest) :
    element (serializeElement e ++ rest) = .done rest e := by
  obtain ⟨hne, hall, hcnt, hpne, hpgood⟩ := he
  obtain ⟨name, count, props⟩ := e
  simp only at hne hall hcnt hpne hpgood
  obtain ⟨n, rfl⟩ : ∃ n : Nat, count = (n : Int) :=
    ⟨count.toNat, (Int.toNat_of_nonneg hcnt.1).symm⟩
  have hn64 : n ≤ 9223372036854775807 := by
    obtain ⟨h0, h1⟩ := hcnt
    omega
  have hre : serializeElement { name := name, count := (n : Int), properties := props } ++ rest =
      bytes "element" ++ (32 :: (name ++ (32 :: (natToDec n ++
        (10 :: ((props.map serializeProperty).flatten ++ rest)))))) := by
    show (bytes "element " ++ name ++ [32] ++ natToDec (n : Int).toNat ++ [10] ++
      (props.map serializeProperty).flatten) ++ rest = _
    rw [show ((n : Int)).toNat = n from Int.toNat_natCast n,
        show bytes "element " = bytes "element" ++ [32] from by decide]
    simp [List.append_assoc]
  rw [hre]
  unfold element
  refine pseq_done_intro tagP_self ?_
  refine pseq_done_intro (ws_span 32 (by decide) (ident_headNot _ hne hall)) ?_
  refine pseq_done_intro (mapRes_done_intro (ident_span hne hall (headNot_cons (by decide)))
    (ident_from_utf8 hall)) ?_
  have hd := natToDec_spec n
  refine pseq_done_intro (ws_span 32 (by decide)
    (@digits_headNot (natToDec n) _ hd.2.1 hd.1)) ?_
  refine pseq_done_intro (int64_digits_done hn64 (headNot_cons (by decide))) ?_
  refine pseq_done_intro (ws_span 10 (by decide) (flattenProps_headNot props hrest)) ?_
  have hfuel : props.length ≤ ((props.map serializeProperty).flatten ++ rest).length + 1 := by
    have := serializeProps_flatten_len props
    simp only [List.length_append]
    omega
  exact mapP_done_intro (many1_props_complete props _ hpgood hpne hfuel hrest hstop)

theorem serializeComment_headNot (c : List Nat) (r : List Nat) :
    headNot isWSB (serializeComment c ++ r) := by
  unfold serializeComment
  rw [show bytes "comment " = 99 :: bytes "omment " from by decide]
  simp only [List.cons_append]
  exact headNot_cons (by decide)

theorem comment_complete (c : List Nat) (hc : goodComment c) {rest : List Nat}
    (hrest : headNot isWSB rest) :
    comment (serializeComment c ++ rest) = .done rest c := by
  obtain ⟨hvalid, hnl, hhd⟩ := hc
  have hcne : c ≠ [] := by
    intro h0
    rw [h0] at hhd
    exact hhd
  have hre : serializeComment c ++ rest =
      bytes "comment" ++ (32 :: (c ++ (10 :: rest))) := by
    show (bytes "comment " ++ c ++ [10]) ++ rest = _
    rw [show bytes "comment " = bytes "comment" ++ [32] from by decide]
    simp [List.append_assoc]
  rw [hre]
  unfold comment
  refine pseq_done_intro tagP_self ?_
  have hchd : headNot isWSB (c ++ (10 :: rest)) := by
    refine headNot_append_left _ hcne ?_
    obtain ⟨b, t, rfl⟩ := List.exists_cons_of_ne_nil hcne
    exact hhd
  refine pseq_done_intro (ws_span 32 (by decide) hchd) ?_
  have hnle : not_line_ending (c ++ (10 :: rest)) = .done (10 :: rest) c := by
    unfold not_line_ending
    have hsp := @takeWhile_append_all (fun b => !(b == 13 || b == 10)) c (10 :: rest)
      (fun b hb => by
        obtain ⟨h13, h10⟩ := hnl b hb
        simp [h13, h10])
      (by simp [headNot])
    rw [hsp.1, hsp.2]
  refine pseq_done_intro (mapRes_done_intro hnle (by
    unfold from_utf8
    rw [if_pos hvalid])) ?_
  exact mapP_done_intro (ws_span 10 (by decide) hrest)

theorem many0_comments_complete :
    ∀ (cs : List (List Nat)) (fuel : Nat) {rest : List Nat},
      (∀ c ∈ cs, goodComment c) → cs.length < fuel →
      headNot isWSB rest →
      tagP (bytes "comment") rest = .error .Tag rest →
      many0P comment fuel ((cs.map serializeComment).flatten ++ rest) = .done rest cs := by
  intro cs
  induction cs with
  | nil =>
    intro fuel rest _ hf _ hstop
    obtain ⟨f', rfl⟩ : ∃ f', fuel = f' + 1 := ⟨fuel - 1, by omega⟩
    simp only [List.map_nil, List.flatten_nil, List.nil_append]
    have hce : comment rest = .error .Tag rest := by
      unfold comment
      exact pseq_error_intro1 hstop
    exact many0P_stop hce
  | cons c cs ih =>
    intro fuel rest hgood hf hrest hstop
    obtain ⟨f', rfl⟩ : ∃ f', fuel = f' + 1 := ⟨fuel - 1, by omega⟩
    simp only [List.map_cons, List.flatten_cons, List.append_assoc]
    have hnext : headNot isWSB ((cs.map serializeComment).flatten ++ rest) := by
      cases cs with
      | nil => simpa using hrest
      | cons c2 cs2 =>
        simp only [List.map_cons, List.flatten_cons, List.append_assoc]
        exact serializeComment_headNot c2 _
    exact many0P_step
      (comment_complete c (hgood c (List.mem_cons_self c cs)) hnext)
      (ih f' (fun q hq => hgood q (List.mem_cons_of_mem c hq))
        (by simp only [List.length_cons] at hf; omega) hrest hstop)

theorem serializeElement_headNot (e : Element) (r : List Nat) :
    headNot isWSB (serializeElement e ++ r) := by
  unfold serializeElement
  rw [show bytes "element " = 101 :: bytes "lement " from by decide]
  simp only [List.cons_append]
  exact headNot_cons (by decide)

theorem serializeElems_flatten_len (es : List Element) :
    es.length ≤ ((es.map serializeElement).flatten).length := by
  induction es with
  | nil => simp
  | cons e es ih =>
    simp only [List.map_cons, List.flatten_cons, List.length_append, List.length_cons]
    have h1 : 1 ≤ (serializeElement e).length := by
      unfold serializeElement
      rw [show bytes "element " = 101 :: bytes "lement " from by decide]
      simp only [List.cons_append, List.length_cons]
      omega
    omega

theorem serializeComs_flatten_len (cs : List (List Nat)) :
    cs.length ≤ ((cs.map serializeComment).flatten).length := by
  induction cs with
  | nil => simp
  | cons c cs ih =>
    simp only [List.map_cons, List.flatten_cons, List.length_append, List.length_cons]
    have h1 : 1 ≤ (serializeComment c).length := by
      unfold serializeComment
      rw [show bytes "comment " = 99 :: bytes "omment " from by decide]
      simp only [List.cons_append, List.length_cons]
      omega
    omega

theorem tagP_cons_mismatch {a b : Nat} {ts xs : List Nat} (hne : (a == b) = false)
    (hlen : ts.length ≤ xs.length) :
    tagP (a :: ts) (b :: xs) = .error .Tag (b :: xs) := by
  refine tagP_mismatch (by simp only [List.length_cons]; omega) ?_
  simp [List.isPrefixOf, hne]

theorem tagA_fails_at_elem {a : Nat} {ts : List Nat} (e : Element) (X : List Nat)
    (ha : (a == 101) = false) (hts : ts.length ≤ 7) :
    tagP (a :: ts) (serializeElement e ++ X) = .error .Tag (serializeElement e ++ X) := by
  have hfm : serializeElement e ++ X =
      101 :: (bytes "lement " ++ (e.name ++ ([32] ++ (natToDec e.count.toNat ++ ([10] ++
        ((e.properties.map serializeProperty).flatten ++ X)))))) := by
    show (bytes "element " ++ e.name ++ [32] ++ natToDec e.count.toNat ++ [10] ++
      (e.properties.map serializeProperty).flatten) ++ X = _
    rw [show bytes "element " = 101 :: bytes "lement " from by decide]
    simp [List.append_assoc]
  rw [hfm]
  refine tagP_cons_mismatch ha ?_
  simp only [List.length_append, List.length_cons]
  have h7 : (bytes "lement ").length = 7 := by decide
  omega

theorem propTag_fails_at_elem (e : Element) (X : List Nat) :
    tagP (bytes "property") (serializeElement e ++ X) =
      .error .Tag (serializeElement e ++ X) := by
  rw [show bytes "property" = 112 :: bytes "roperty" from by decide]
  exact tagA_fails_at_elem e X (by decide) (by decide)

theorem comTag_fails_at_elem (e : Element) (X : List Nat) :
    tagP (bytes "comment") (serializeElement e ++ X) =
      .error .Tag (serializeElement e ++ X) := by
  rw [show bytes "comment" = 99 :: bytes "omment" from by decide]
  exact tagA_fails_at_elem e X (by decide) (by decide)

theorem many0_elems_complete :
    ∀ (es : List Element) (fuel : Nat) {rest : List Nat},
      (∀ e ∈ es, goodElement e) → es.length < fuel →
      headNot isWSB rest →
      tagP (bytes "element") rest = .error .Tag rest →
      tagP (bytes "property") rest = .error .Tag rest →
      many0P element fuel ((es.map serializeElement).flatten ++ rest) = .done rest es := by
  intro es
  induction es with
  | nil =>
    intro fuel rest _ hf _ hstopE _
    obtain ⟨f', rfl⟩ : ∃ f', fuel = f' + 1 := ⟨fuel - 1, by omega⟩
    simp only [List.map_nil, List.flatten_nil, List.nil_append]
    have hee : element rest = .error .Tag rest := by
      unfold element
      exact pseq_error_intro1 hstopE
    exact many0P_stop hee
  | cons e es ih =>
    intro fuel rest hgood hf hrest hstopE hstopP
    obtain ⟨f', rfl⟩ : ∃ f', fuel = f' + 1 := ⟨fuel - 1, by omega⟩
    simp only [List.map_cons, List.flatten_cons, List.append_assoc]
    have hnext : headNot isWSB ((es.map serializeElement).flatten ++ rest) := by
      cases es with
      | nil => simpa using hrest
      | cons e2 es2 =>
        simp only [List.map_cons, List.flatten_cons, List.append_assoc]
        exact serializeElement_headNot e2 _
    have hnextP : tagP (bytes "property") ((es.map serializeElement).flatten ++ rest) =
        .error .Tag ((es.map serializeElement).flatten ++ rest) := by
      cases es with
      | nil => simpa using hstopP
      | cons e2 es2 =>
        simp only [List.map_cons, List.flatten_cons, List.append_assoc]
        exact propTag_fails_at_elem e2 _
    exact many0P_step
      (element_complete e (hgood e (List.mem_cons_self e es)) hnext hnextP)
      (ih f' (fun q hq => hgood q (List.mem_cons_of_mem e hq))
        (by simp only [List.length_cons] at hf; omega) hrest hstopE hstopP)

theorem many1_elems_complete (es : List Element) (fuel : Nat) {rest : List Nat}
    (hgood : ∀ e ∈ es, goodElement e) (hne : es ≠ []) (hf : es.length ≤ fuel)
    (hrest : headNot isWSB rest)
    (hstopE : tagP (bytes "element") rest = .error .Tag rest)
    (hstopP : tagP (bytes "property") rest = .error .Tag rest) :
    many1P element fuel ((es.map serializeElement).flatten ++ rest) = .done rest es := by
  obtain ⟨e, es', rfl⟩ := List.exists_cons_of_ne_nil hne
  simp only [List.map_cons, List.flatten_cons, List.append_assoc]
  have hnext : headNot isWSB ((es'.map serializeElement).flatten ++ rest) := by
    cases es' with
    | nil => simpa using hrest
    | cons e2 es2 =>
      simp only [List.map_cons, List.flatten_cons, List.append_assoc]
      exact serializeElement_headNot e2 _
  have hnextP : tagP (bytes "property") ((es'.map serializeElement).flatten ++ rest) =
      .error .Tag ((es'.map serializeElement).flatten ++ rest) := by
    cases es' with
    | nil => simpa using hstopP
    | cons e2 es2 =>
      simp only [List.map_cons, List.flatten_cons, List.append_assoc]
      exact propTag_fails_at_elem e2 _
  exact many1P_intro
    (element_complete e (hgood e (List.mem_cons_self e es')) hnext hnextP)
    (many0_elems_complete es' fuel (fun q hq => hgood q (List.mem_cons_of_mem e hq))
      (by simp only [List.length_cons] at hf; omega) hrest hstopE hstopP)

theorem serialize_complete (h : Header) (hwf : WFHeader h) :
    header (serializeHeader h) = .done [] h := by
  obtain ⟨hcom, hmaj, hmn, hene, hegood⟩ := hwf
  obtain ⟨comments, fmt, elements⟩ := h
  obtain ⟨kind, version⟩ := fmt
  obtain ⟨major, minor⟩ := version
  simp only at hcom hmaj hmn hene hegood
  obtain ⟨maj, rfl⟩ : ∃ n : Nat, major = (n : Int) :=
    ⟨major.toNat, (Int.toNat_of_nonneg hmaj.1).symm⟩
  obtain ⟨mn, rfl⟩ : ∃ n : Nat, minor = (n : Int) :=
    ⟨minor.toNat, (Int.toNat_of_nonneg hmn.1).symm⟩
  have hmaj31 : maj ≤ 2147483647 := by
    obtain ⟨h0, h1⟩ := hmaj
    omega
  have hmn31 : mn ≤ 2147483647 := by
    obtain ⟨h0, h1⟩ := hmn
    omega
  have hre : serializeHeader ⟨comments, ⟨kind, ⟨(maj : Int), (mn : Int)⟩⟩, elements⟩ =
      bytes "ply" ++ (10 :: (bytes "format" ++ ([32] ++ (kindBytes kind ++ ([32] ++
        (natToDec maj ++ ([46] ++ (natToDec mn ++ ([10] ++
        ((comments.map serializeComment).flatten ++ ((elements.map serializeElement).flatten ++
          (bytes "end_header" ++ [10])))))))))))) := by
    show bytes "ply\nformat " ++ kindBytes kind ++ [32] ++
      natToDec ((maj : Int)).toNat ++ [46] ++ natToDec ((mn : Int)).toNat ++ [10] ++
      (comments.map serializeComment).flatten ++ (elements.map serializeElement).flatten ++
      bytes "end_header\n" = _
    rw [show ((maj : Int)).toNat = maj from Int.toNat_natCast maj,
        show ((mn : Int)).toNat = mn from Int.toNat_natCast mn,
        show bytes "ply\nformat " = bytes "ply" ++ ([10] ++ (bytes "format" ++ [32]))
          from by decide,
        show bytes "end_header\n" = bytes "end_header" ++ [10] from by decide]
    simp [List.append_assoc]
  rw [hre]
  have hRend : headNot isWSB (bytes "end_header" ++ [10]) := by
    rw [show bytes "end_header" ++ [10] = 101 :: (bytes "nd_header" ++ [10]) from by decide]
    exact headNot_cons (by decide)
  have hstopCend : tagP (bytes "comment") (bytes "end_header" ++ [10]) =
      .error .Tag (bytes "end_header" ++ [10]) := by decide
  have hstopEend : tagP (bytes "element") (bytes "end_header" ++ [10]) =
      .error .Tag (bytes "end_header" ++ [10]) := by decide
  have hstopPend : tagP (bytes "property") (bytes "end_header" ++ [10]) =
      .error .Tag (bytes "end_header" ++ [10]) := by decide
  obtain ⟨e0, es0, rfl⟩ := List.exists_cons_of_ne_nil hene
  have hR1 : headNot isWSB (((e0 :: es0).map serializeElement).flatten ++
      (bytes "end_header" ++ [10])) := by
    simp only [List.map_cons, List.flatten_cons, List.append_assoc]
    exact serializeElement_headNot e0 _
  have hstopC1 : tagP (bytes "comment") (((e0 :: es0).map serializeElement).flatten ++
      (bytes "end_header" ++ [10])) =
      .error .Tag (((e0 :: es0).map serializeElement).flatten ++
        (bytes "end_header" ++ [10])) := by
    simp only [List.map_cons, List.flatten_cons, List.append_assoc]
    exact comTag_fails_at_elem e0 _
  unfold header
  refine pseq_done_intro tagP_self ?_
  have hfmtHead : headNot isWSB (bytes "format" ++ ([32] ++ (kindBytes kind ++ ([32] ++
      (natToDec maj ++ ([46] ++ (natToDec mn ++ ([10] ++
      (((comments.map serializeComment).flatten ++
        (((e0 :: es0).map serializeElement).flatten ++
        (bytes "end_header" ++ [10])))))))))))) := by
    rw [show bytes "format" = 102 :: bytes "ormat" from by decide, List.cons_append]
    exact headNot_cons (by decide)
  refine pseq_done_intro (ws_span 10 (by decide) hfmtHead) ?_
  have hR0 : headNot isWSB ((comments.map serializeComment).flatten ++
      (((e0 :: es0).map serializeElement).flatten ++ (bytes "end_header" ++ [10]))) := by
    cases comments with
    | nil => simpa using hR1
    | cons c cs =>
      simp only [List.map_cons, List.flatten_cons, List.append_assoc]
      exact serializeComment_headNot c _
  refine pseq_done_intro (format_complete kind maj mn _ hmaj31 hmn31 hR0) ?_
  have hclen : comments.length <
      ((comments.map serializeComment).flatten ++
        (((e0 :: es0).map serializeElement).flatten ++ (bytes "end_header" ++ [10]))).length
        + 1 := by
    have := serializeComs_flatten_len comments
    simp only [List.length_append]
    omega
  refine pseq_done_intro
    (many0_comments_complete comments _ hcom hclen hR1 hstopC1) ?_
  have helen : (e0 :: es0).length ≤
      ((((e0 :: es0).map serializeElement).flatten) ++ (bytes "end_header" ++ [10])).length
        + 1 := by
    have := serializeElems_flatten_len (e0 :: es0)
    simp only [List.length_append]
    omega
  refine pseq_done_intro
    (many1_elems_complete (e0 :: es0) _ hegood (List.cons_ne_nil e0 es0) helen
      hRend hstopEend hstopPend) ?_
  refine pseq_done_intro tagP_self ?_
  exact mapP_done_intro (ws_span 10 (by decide) trivial)

/-- **C9.** Header round-trip idempotence: whenever `header` succeeds on some
input and yields a `Header` value, re-serializing that value to canonical
header text (the spec-modelled printer `serializeHeader`) and parsing that
text again succeeds, consumes the whole text, and returns a `Header` equal to
the first one. -/
theorem c9_header_roundtrip {i r : List Nat} {h : Header}
    (hd : header i = .done r h) :
    header (serializeHeader h) = .done [] h :=
  serialize_complete h (header_done_WF hd)

set_option maxRecDepth 100000 in
theorem c9_header_roundtrip_witness :
    header (serializeHeader c1hdr) = .done [] c1hdr :=
  c9_header_roundtrip (show header c1input = .done c1body c1hdr from by decide)

end Ply
